import Mathlib

/-!
Verification of the lang_agent backend (Shopify chat agent).

This file shallowly embeds the core of the repository in Lean 4:

* `backend/shopify/client.py` — `parse_link_header`, `get_shopify_data`
  (retry/backoff loop on HTTP 429, error taxonomy, URL normalization) and
  `get_all_shopify_data` (cursor pagination driver);
* `backend/ai_agent/tools.py` — the tool layer (`get_shopify_data_tool`,
  `get_all_shopify_data_tool`) with its page-merging and truncation logic;
* `backend/ai_agent/agent.py` — the exception-to-dict behaviour of
  `run_agent`;
* `backend/api/views.py` — `create_response` and the `chat` request handler
  (validation, error-to-status mapping).

Python values flowing through these functions (decoded JSON bodies, dicts)
are modelled by `JValue`; Python dicts are association lists with
first-occurrence lookup, in-place update and append-on-new-key, matching
CPython dict semantics (insertion order preserved, keys unique).
Network I/O is modelled by passing the scripted sequence of HTTP responses
(or the resulting client outcome) as an explicit argument.
-/

/-- Model of a decoded JSON / Python value: `null` is Python `None`,
`arr` a Python list, `obj` a Python dict (association list in insertion
order, keys unique). Numbers are modelled as rationals. -/
inductive JValue where
  | null : JValue
  | bool : Bool → JValue
  | num : ℚ → JValue
  | str : String → JValue
  | arr : List JValue → JValue
  | obj : List (String × JValue) → JValue

/-- Python `d[k]`-style lookup on an association list: value of the first
(and, for dicts, only) occurrence of key `k`. -/
def lookupKey (fields : List (String × JValue)) (k : String) : Option JValue :=
  match fields with
  | [] => none
  | (k2, v) :: rest => if k2 = k then some v else lookupKey rest k

/-- Python `d[k] = v` on an association list: update in place if the key
exists (position preserved), otherwise append at the end. -/
def setKey (fields : List (String × JValue)) (k : String) (v : JValue) :
    List (String × JValue) :=
  match fields with
  | [] => [(k, v)]
  | (k2, v2) :: rest =>
    if k2 = k then (k2, v) :: rest else (k2, v2) :: setKey rest k v

/-- One inner step of the page-merge loop of `get_all_shopify_data_tool`
(`tools.py` lines 124-131), for a single `(key, value)` item of a page:

    if key not in combined_data:
        combined_data[key] = []
    if isinstance(value, list):
        combined_data[key].extend(value)
    else:
        combined_data[key] = value

`none` models the `AttributeError` raised by `.extend` when the current
value under `key` is not a list (that exception is caught further out by
the tool's `except Exception` handler). -/
def mergeEntry (combined : List (String × JValue)) (k : String) (v : JValue) :
    Option (List (String × JValue)) :=
  let c1 := match lookupKey combined k with
    | none => setKey combined k (JValue.arr [])
    | some _ => combined
  match v with
  | JValue.arr vs =>
    match lookupKey c1 k with
    | some (JValue.arr us) => some (setKey c1 k (JValue.arr (us ++ vs)))
    | _ => none
  | _ => some (setKey c1 k v)

/-- The inner `for key, value in page.items()` loop of
`get_all_shopify_data_tool`, over one page. -/
def mergePage (combined : List (String × JValue)) :
    List (String × JValue) → Option (List (String × JValue))
  | [] => some combined
  | (k, v) :: rest =>
    match mergeEntry combined k v with
    | none => none
    | some c2 => mergePage c2 rest

/-- Helper running the outer `for page in all_pages` loop of
`get_all_shopify_data_tool` from an accumulator. -/
def mergePagesAux (combined : List (String × JValue)) :
    List (List (String × JValue)) → Option (List (String × JValue))
  | [] => some combined
  | p :: ps =>
    match mergePage combined p with
    | none => none
    | some c2 => mergePagesAux c2 ps

/-- The page-merging step of `get_all_shopify_data_tool` (`tools.py`
lines 122-131): fold the pages into `combined_data`, starting from the
empty dict. `none` models an `AttributeError` escaping the loop. -/
def mergePages (pages : List (List (String × JValue))) :
    Option (List (String × JValue)) :=
  mergePagesAux [] pages

/-- Values found under key `k` across the pages, in page order
(spec-side helper: one lookup per page that defines `k`). -/
def keyOccurrences (k : String) (pages : List (List (String × JValue))) :
    List JValue :=
  pages.filterMap (fun p => lookupKey p k)

/-- Concatenation of the list elements of the values under `k` across
pages (spec-side helper; meaningful when all occurrences are lists). -/
def concatKey (k : String) (pages : List (List (String × JValue))) :
    List JValue :=
  (keyOccurrences k pages).foldr
    (fun v acc => match v with | JValue.arr xs => xs ++ acc | _ => acc) []

/-! ## Link-Header parser (`client.py` lines 38-50)

`parse_link_header` applies `re.search` with the pattern
`<([^>]+)>;\s*rel="next"` and returns the captured group.  For this
pattern the regex engine is deterministic: a match can only start at a
`<`; the group `[^>]+` is forced to run to the first following `>`
(nonempty); then the literal `;`, any run of whitespace, and the literal
`rel="next"` must follow.  `re.search` returns the match with the
leftmost starting position.  The functions below implement exactly that
procedure on the character list. -/

/-- Characters matched by the regex class `\s` (ASCII). -/
def isRegexSpace (c : Char) : Bool :=
  c = ' ' || c = '\t' || c = '\n' || c = '\r' || c = '\x0b' || c = '\x0c'

/-- Split a character list at the first `>`: returns the characters
before it and the remainder after it, or `none` when there is no `>`.
This is the unique way `[^>]+>` can match. -/
def splitAtGt : List Char → Option (List Char × List Char)
  | [] => none
  | c :: rest =>
    if c = '>' then some ([], rest)
    else (splitAtGt rest).map (fun pr => (c :: pr.1, pr.2))

/-- The literal `rel="next"` as characters. -/
def relNextLit : List Char := ('r' :: 'e' :: 'l' :: '=' :: '\x22' :: 'n' :: 'e' :: 'x' :: 't' :: '\x22' :: [])

/-- Attempt of the pattern `<([^>]+)>;\s*rel="next"` anchored at the head
of the list; returns the captured group on success. -/
def matchNextAt (l : List Char) : Option (List Char) :=
  match l with
  | [] => none
  | c :: rest =>
    if c = '<' then
      match splitAtGt rest with
      | none => none
      | some (url, after) =>
        if url = [] then none
        else
          match after with
          | ';' :: after2 =>
            if relNextLit.isPrefixOf (after2.dropWhile isRegexSpace) then some url
            else none
          | _ => none
    else none

/-- `re.search`: try the pattern at each start position, leftmost first. -/
def searchNext : List Char → Option (List Char)
  | [] => none
  | c :: rest =>
    match matchNextAt (c :: rest) with
    | some url => some url
    | none => searchNext rest

/-- `parse_link_header` (`client.py` lines 38-50): `None` and the empty
string are falsy and yield `None`; otherwise search for
`<([^>]+)>;\s*rel="next"` and return the captured URL. -/
def parse_link_header (linkHeader : Option String) : Option String :=
  match linkHeader with
  | none => none
  | some s => if s = "" then none else (searchNext s.data).map String.mk

/-- A link entry `<URL>; rel="relation"` (spec-side data model for §4.1:
a header is a comma-separated list of such entries). -/
structure LinkEntry where
  url : String
  rel : String

/-- Characters of the rendered entry `<URL>; rel="relation"`. -/
def entryChars (e : LinkEntry) : List Char :=
  '<' :: (e.url.data ++ '>' :: ';' :: ' ' :: ('r' :: 'e' :: 'l' :: '=' :: '\x22' :: (e.rel.data ++ ['\x22'])))

/-- Characters of a full header: entries joined by `", "`. -/
def headerChars : List LinkEntry → List Char
  | [] => []
  | [e] => entryChars e
  | e :: es => entryChars e ++ ',' :: ' ' :: headerChars es

/-- A rendered header string (spec-side: "possibly containing multiple
comma-separated link entries, each of the form `<URL>; rel="relation"`"). -/
def renderHeader (es : List LinkEntry) : String := String.mk (headerChars es)

/-- Well-formedness of an entry, the formal reading of `<URL>; rel="r"`:
the URL is nonempty and contains no angle bracket, and the relation name
contains no angle bracket and no double quote. -/
def goodEntry (e : LinkEntry) : Prop :=
  e.url ≠ "" ∧ (∀ c ∈ e.url.data, c ≠ '<' ∧ c ≠ '>') ∧
    (∀ c ∈ e.rel.data, c ≠ '<' ∧ c ≠ '>' ∧ c ≠ '\x22')

instance (e : LinkEntry) : Decidable (goodEntry e) := by
  unfold goodEntry
  infer_instance

/-! ## Shopify REST client (`client.py` lines 54-180) -/

/-- Model of Python `float(s)` on finite decimal literals: optional
surrounding whitespace, optional sign, decimal digits with an optional
fractional part (at least one digit overall, `"5."` and `".5"` allowed),
and an optional integer exponent.  `none` models the `ValueError` that
`get_shopify_data` catches when the `Retry-After` header does not parse.
(The model leaves out `inf`/`nan` and underscore digit separators, and
uses exact rational arithmetic for float values.) -/
def pyFloat (s : String) : Option ℚ :=
  let cs := (s.data.dropWhile Char.isWhitespace).reverse.dropWhile Char.isWhitespace |>.reverse
  let (sign, cs1) : ℚ × List Char :=
    match cs with
    | '-' :: rest => (-1, rest)
    | '+' :: rest => (1, rest)
    | rest => (1, rest)
  let ip := cs1.takeWhile Char.isDigit
  let r1 := cs1.dropWhile Char.isDigit
  let digitsVal : List Char → ℕ :=
    fun ds => ds.foldl (fun a c => a * 10 + (c.toNat - 48)) 0
  let (fp, r2) : List Char × List Char :=
    match r1 with
    | '.' :: rest => (rest.takeWhile Char.isDigit, rest.dropWhile Char.isDigit)
    | _ => ([], r1)
  let hasDot : Bool := match r1 with | '.' :: _ => true | _ => false
  if ip = [] ∧ (fp = [] ∨ ¬hasDot) then none
  else
    let mant : ℚ := (digitsVal ip : ℚ) + (digitsVal fp : ℚ) / ((10 : ℚ) ^ fp.length)
    match r2 with
    | [] => some (sign * mant)
    | e :: rest =>
      if e = 'e' ∨ e = 'E' then
        let (esign, rest2) : ℤ × List Char :=
          match rest with
          | '-' :: r => (-1, r)
          | '+' :: r => (1, r)
          | r => (1, r)
        let ed := rest2.takeWhile Char.isDigit
        if ed = [] ∨ rest2.dropWhile Char.isDigit ≠ [] then none
        else some (sign * mant * (10 : ℚ) ^ (esign * (digitsVal ed : ℤ)))
      else none

/-- Python `s.replace(pat, '')` on character lists, with explicit fuel
(the list length suffices): scan left to right, deleting each
non-overlapping occurrence of `pat` and continuing after it. -/
def removeAllFuel (pat : List Char) : Nat → List Char → List Char
  | 0, l => l
  | _ + 1, [] => []
  | fuel + 1, c :: rest =>
    if pat ≠ [] ∧ pat.isPrefixOf (c :: rest) then
      removeAllFuel pat fuel (List.drop pat.length (c :: rest))
    else c :: removeAllFuel pat fuel rest

/-- Python `s.replace(pat, '')`: remove every occurrence of `pat`. -/
def removeAll (pat : List Char) (l : List Char) : List Char :=
  removeAllFuel pat l.length l

/-- Python `s.rstrip('/')`: drop every trailing slash. -/
def rstripSlashes (l : List Char) : List Char :=
  (l.reverse.dropWhile (fun c => c = '/')).reverse

/-- The store normalization of `get_shopify_data` (`client.py` line 86):

    shop_url.replace('https://', '').replace('http://', '').rstrip('/')

Note that Python `str.replace` removes every occurrence of the pattern,
not only a leading one. -/
def normalizeShopUrl (s : String) : String :=
  String.mk (rstripSlashes (removeAll "http://".data (removeAll "https://".data s.data)))

/-- Spec-side normalization, written from the claim wording: strip a
leading `https://` or `http://` scheme and trailing slashes, leaving the
rest of the identifier unchanged. -/
def normalizeStoreSpec (s : String) : String :=
  let cs := s.data
  let cs1 := if "https://".data.isPrefixOf cs then cs.drop 8
    else if "http://".data.isPrefixOf cs then cs.drop 7 else cs
  String.mk (rstripSlashes cs1)

/-- Python `endpoint.lstrip('/')`. -/
def lstripSlashes (s : String) : String :=
  String.mk (s.data.dropWhile (fun c => c = '/'))

/-- One scripted HTTP response: status code, reason phrase, raw body
text, the `Retry-After` and `Link` headers, and the decoded JSON body
(used when the status is a success). -/
structure HttpResp where
  status : Nat
  reason : String
  body : String
  retryAfter : Option String
  linkHeader : Option String
  jsonData : JValue

/-- Outcome of a `get_shopify_data` call: the returned
`{'data': ..., 'next_page_url': ...}` dict, or one of the exceptions of
the `ShopifyAPIError` taxonomy (each carrying its message, and for the
HTTP/rate-limit variants the status code and response body).
`noResponse` is a model artifact for a run whose response script is
exhausted (the real code would issue another HTTP request there). -/
inductive ClientOutcome where
  | ok (data : JValue) (nextPageUrl : Option String)
  | configError (msg : String)
  | rateLimitError (msg : String) (statusCode : Nat) (responseBody : String)
  | httpError (msg : String) (statusCode : Nat) (responseBody : String)
  | networkError (msg : String)
  | noResponse

/-- Result of running the request/retry loop: the outcome, the number of
attempts performed (HTTP requests issued), and the sequence of
`time.sleep` durations in order. -/
structure AttemptRes where
  outcome : ClientOutcome
  attempts : Nat
  sleeps : List ℚ

/-- The sleep duration chosen on a retried 429 (`client.py` lines
120-128): the `Retry-After` header value when the header is present,
truthy and parses as a float, otherwise the current backoff. -/
def waitTime (resp : HttpResp) (backoff : ℚ) : ℚ :=
  match resp.retryAfter with
  | none => backoff
  | some ra =>
    if ra = "" then backoff
    else match pyFloat ra with
      | some w => w
      | none => backoff

/-- The `for attempt in range(max_retries + 1)` loop of
`get_shopify_data` (`client.py` lines 108-158), consuming one scripted
response per attempt.  `origRetries` is the function's `max_retries`
argument (used in the rate-limit message); `retriesLeft` is
`max_retries - attempt`, so `attempt < max_retries` iff
`retriesLeft ≠ 0`.  On a retried 429 the loop sleeps `waitTime` and
doubles the backoff; on a final 429 it raises `ShopifyRateLimitError`;
on another status `≥ 400` it raises `ShopifyHTTPError` immediately;
otherwise it returns the decoded body and the parsed `Link` header. -/
def runClientAux (origRetries : Nat) : List HttpResp → Nat → ℚ → AttemptRes
  | [], _, _ => ⟨ClientOutcome.noResponse, 0, []⟩
  | resp :: rest, retriesLeft, backoff =>
    if resp.status = 429 then
      match retriesLeft with
      | 0 =>
        ⟨ClientOutcome.rateLimitError
          ("Rate limit exceeded after " ++ toString origRetries ++ " retries") 429 resp.body, 1, []⟩
      | r + 1 =>
        let w := waitTime resp backoff
        let tail := runClientAux origRetries rest r (backoff * 2)
        ⟨tail.outcome, tail.attempts + 1, w :: tail.sleeps⟩
    else if 400 ≤ resp.status then
      ⟨ClientOutcome.httpError ("HTTP " ++ toString resp.status ++ ": " ++ resp.reason)
        resp.status resp.body, 1, []⟩
    else
      ⟨ClientOutcome.ok resp.jsonData (parse_link_header resp.linkHeader), 1, []⟩

/-- Python truthiness of an optional string (`os.environ.get` result or
optional argument): `None` and `''` are falsy. -/
def pyTruthy : Option String → Bool
  | none => false
  | some s => !(s = "")

/-- Process configuration read by `get_shopify_data`:
`SHOPIFY_ACCESS_TOKEN`, `SHOPIFY_API_VERSION`, `SHOPIFY_SHOP_NAME`. -/
structure ShopifyCfg where
  accessToken : Option String
  apiVersion : Option String
  shopName : Option String

/-- Result of a full `get_shopify_data` call: the request URL that was
(or would have been) constructed, and the loop result. `url` is `""` on
a configuration error, which is raised before the URL is built. -/
structure ClientRun where
  url : String
  outcome : ClientOutcome
  attempts : Nat
  sleeps : List ℚ

/-- `get_shopify_data` (`client.py` lines 54-180): resolve and validate
configuration, normalize the store identifier, build the request URL
`https://{store}/admin/api/{version}/{endpoint}` (endpoint's leading
slashes stripped), then run the retry loop over the scripted responses. -/
def get_shopify_data (cfg : ShopifyCfg) (endpoint : String)
    (storeUrl : Option String) (maxRetries : Nat) (initialBackoff : ℚ)
    (script : List HttpResp) : ClientRun :=
  let shopUrlOpt := if pyTruthy storeUrl then storeUrl else cfg.shopName
  if !(pyTruthy cfg.accessToken) then
    ⟨"", ClientOutcome.configError "SHOPIFY_ACCESS_TOKEN environment variable is not set", 0, []⟩
  else if !(pyTruthy cfg.apiVersion) then
    ⟨"", ClientOutcome.configError "SHOPIFY_API_VERSION environment variable is not set", 0, []⟩
  else if !(pyTruthy shopUrlOpt) then
    ⟨"", ClientOutcome.configError
      "store_url parameter not provided and SHOPIFY_SHOP_NAME environment variable is not set", 0, []⟩
  else
    let shop := normalizeShopUrl (shopUrlOpt.getD "")
    let url := "https://" ++ shop ++ "/admin/api/" ++ cfg.apiVersion.getD "" ++ "/"
      ++ lstripSlashes endpoint
    let r := runClientAux maxRetries script maxRetries initialBackoff
    ⟨url, r.outcome, r.attempts, r.sleeps⟩

/-- The Python defaults of `get_shopify_data`: `max_retries: int = 5`. -/
def defaultMaxRetries : Nat := 5

/-- The Python defaults of `get_shopify_data`: `initial_backoff: float = 1.0`. -/
def defaultInitialBackoff : ℚ := 1

/-! ## Pagination driver (`client.py` lines 183-216) -/

/-- The `{'data': ..., 'next_page_url': ...}` dict returned by one
successful client call (the spec's `PageResult`). -/
structure PageResult where
  data : JValue
  nextPageUrl : Option String

/-- The `while True` loop of `get_all_shopify_data`, consuming one
scripted `PageResult` per client call.  The loop first checks
`if max_pages and page_count >= max_pages: break` (Python truthiness:
`None` and `0` are falsy, so they disable the cap), then fetches,
appends the payload, increments the page count, and breaks when the next
cursor is falsy.  The per-page request parameters (`page_info`
extraction from the cursor URL) only shape the outgoing request, which
the response script abstracts, so they do not appear here.  An exhausted
script ends the run (model artifact: the real code would issue another
request). -/
def capReached (maxPages : Option Int) (pageCount : Nat) : Bool :=
  match maxPages with
  | none => false
  | some m => !(m = 0) && (m ≤ (pageCount : Int))

/-- See `capReached` for the `if max_pages and page_count >= max_pages`
test; when the script is exhausted the loop yields nothing either way,
so the check is hoisted into the cons case. -/
def getAllLoop : List PageResult → Option Int → Nat → List JValue
  | [], _, _ => []
  | r :: rest, maxPages, pageCount =>
    if capReached maxPages pageCount then []
    else
      r.data :: (if pyTruthy r.nextPageUrl then getAllLoop rest maxPages (pageCount + 1) else [])

/-- `get_all_shopify_data` (`client.py` lines 183-216) over a scripted
sequence of page results. -/
def get_all_shopify_data (script : List PageResult) (maxPages : Option Int) : List JValue :=
  getAllLoop script maxPages 0

/-- Spec-side driver semantics: take payloads up to and including the
first page without a (truthy) next cursor. -/
def takeThroughCursor : List PageResult → List JValue
  | [] => []
  | r :: rest =>
    r.data :: (if pyTruthy r.nextPageUrl then takeThroughCursor rest else [])

/-! ## Tool layer (`tools.py`)

The tools wrap the client and are invoked by the LLM agent.  Each tool
serializes its result dict with `json.dumps` and returns the string; the
dict itself is modelled here (the serialization is a faithful
presentation boundary).  The params string goes through `json.loads`,
modelled by `ParamsArg`; the client call is modelled by passing its
outcome. -/

/-- `MAX_ITEMS_FOR_LLM` (`tools.py` line 10). -/
def maxItemsForLLM : Nat := 10

/-- The valid endpoints list of both tools. -/
def validEndpointsList : List String := ["orders.json", "products.json", "customers.json"]

/-- A JSON object with a single `error` key, as returned by the tools on
failure. -/
def errObj (msg : String) : JValue := JValue.obj [("error", JValue.str msg)]

/-- A tool return value that is a JSON object with an `error` key whose
value is a string (the shape of every failure return of the tools). -/
def hasErrorKey (v : JValue) : Prop :=
  ∃ fields s, v = JValue.obj fields ∧ lookupKey fields "error" = some (JValue.str s)

/-- The invalid-endpoint message
`f"Invalid endpoint '{endpoint}'. Must be one of: {valid_endpoints}"`. -/
def invalidEndpointMsg (endpoint : String) : String :=
  "Invalid endpoint \x27" ++ endpoint ++
    "\x27. Must be one of: [\x27orders.json\x27, \x27products.json\x27, \x27customers.json\x27]"

/-- The `params` argument of a tool, as seen through
`if params: json.loads(params)`: `absent` for `None` or an empty
(falsy) string, `parsed v` when `json.loads` succeeds with value `v`,
`malformed m` when it raises `json.JSONDecodeError` with message `m`. -/
inductive ParamsArg where
  | absent
  | parsed (v : JValue)
  | malformed (msg : String)

/-- `str(e)` for each exception of the client taxonomy (the exception
message is the first constructor argument). -/
def clientErrMsg : ClientOutcome → String
  | ClientOutcome.ok _ _ => ""
  | ClientOutcome.configError m => m
  | ClientOutcome.rateLimitError m _ _ => m
  | ClientOutcome.httpError m _ _ => m
  | ClientOutcome.networkError m => m
  | ClientOutcome.noResponse => "Unexpected error in get_shopify_data"

/-- Model of `str(AttributeError)` for `data.keys()` on a non-dict
(abstracting the Python type-name prefix of the real message). -/
def noKeysMsg : String := "object has no attribute \x27keys\x27"

/-- Model of `str(AttributeError)` for `page.items()` on a non-dict
(abstracting the Python type-name prefix of the real message). -/
def noItemsMsg : String := "object has no attribute \x27items\x27"

/-- Model of `str(AttributeError)` for `.extend` on a non-list
(abstracting the Python type-name prefix of the real message). -/
def noExtendMsg : String := "object has no attribute \x27extend\x27"

/-- The truncation loop of `get_shopify_data_tool` (`tools.py` lines
64-68): every list longer than `MAX_ITEMS_FOR_LLM` is cut to its first
10 elements in place, and a `{key}_truncated` note is appended (the loop
iterates over a snapshot of the original keys, so the appended notes are
not themselves truncated; the model assumes the note keys are fresh). -/
def truncateToolFields (fields : List (String × JValue)) : List (String × JValue) :=
  (fields.map (fun kv =>
    match kv with
    | (k, JValue.arr xs) =>
      if maxItemsForLLM < xs.length then (k, JValue.arr (xs.take maxItemsForLLM)) else kv
    | kv => kv)) ++
  fields.foldr (fun kv acc =>
    match kv with
    | (k, JValue.arr xs) =>
      if maxItemsForLLM < xs.length then
        (k ++ "_truncated",
          JValue.str ("Showing " ++ toString maxItemsForLLM ++ " of " ++ toString xs.length
            ++ " items")) :: acc
      else acc
    | _ => acc) []

/-- `get_shopify_data_tool` (`tools.py` lines 13-74): validate the
endpoint, parse the params string, call the client inside
`try/except Exception` (any client exception becomes a returned
`{"error": ...}` object), truncate long lists, and return the dict to be
serialized.  A non-dict decoded body makes `data.keys()` raise, which
the same handler converts. -/
def get_shopify_data_tool (endpoint : String) (params : ParamsArg)
    (clientOutcome : ClientOutcome) : JValue :=
  if !(validEndpointsList.contains endpoint) then errObj (invalidEndpointMsg endpoint)
  else
    match params with
    | ParamsArg.malformed m => errObj ("Invalid params JSON: " ++ m)
    | _ =>
      match clientOutcome with
      | ClientOutcome.ok data _ =>
        match data with
        | JValue.obj fields => JValue.obj (truncateToolFields fields)
        | _ => errObj ("Shopify API error: " ++ noKeysMsg)
      | e => errObj ("Shopify API error: " ++ clientErrMsg e)

/-- Outcome of the `get_all_shopify_data` call made by
`get_all_shopify_data_tool`: either the list of page payloads, or a
client exception propagated unmodified by the driver. -/
inductive AllPagesOutcome where
  | pages (ps : List JValue)
  | raised (e : ClientOutcome)

/-- All pages as dicts, or `none` if some page is not a dict (making
`page.items()` raise inside the tool's `try`). -/
def pagesAsObjs : List JValue → Option (List (List (String × JValue)))
  | [] => some []
  | JValue.obj f :: rest => (pagesAsObjs rest).map (fun l => f :: l)
  | _ => none

/-- The truncation loop of `get_all_shopify_data_tool` (`tools.py` lines
134-139): like `truncateToolFields`, but appending both a
`{key}_total_count` and a `{key}_truncated` note per truncated key. -/
def truncateAllFields (fields : List (String × JValue)) : List (String × JValue) :=
  (fields.map (fun kv =>
    match kv with
    | (k, JValue.arr xs) =>
      if maxItemsForLLM < xs.length then (k, JValue.arr (xs.take maxItemsForLLM)) else kv
    | kv => kv)) ++
  fields.foldr (fun kv acc =>
    match kv with
    | (k, JValue.arr xs) =>
      if maxItemsForLLM < xs.length then
        (k ++ "_total_count", JValue.num (xs.length : ℚ)) ::
        (k ++ "_truncated",
          JValue.str ("Showing " ++ toString maxItemsForLLM ++ " of " ++ toString xs.length
            ++ " items. Use python_repl to analyze all data.")) :: acc
      else acc
    | _ => acc) []

/-- `get_all_shopify_data_tool` (`tools.py` lines 77-145): validate the
endpoint, parse the params string, fetch all pages inside
`try/except Exception`, merge them with `mergePages`, truncate, and
return the dict to be serialized.  Client exceptions, non-dict pages and
merge `AttributeError`s all become returned `{"error": ...}` objects. -/
def get_all_shopify_data_tool (endpoint : String) (params : ParamsArg)
    (outcome : AllPagesOutcome) : JValue :=
  if !(validEndpointsList.contains endpoint) then errObj (invalidEndpointMsg endpoint)
  else
    match params with
    | ParamsArg.malformed m => errObj ("Invalid params JSON: " ++ m)
    | _ =>
      match outcome with
      | AllPagesOutcome.raised e => errObj ("Shopify API error: " ++ clientErrMsg e)
      | AllPagesOutcome.pages ps =>
        match pagesAsObjs ps with
        | none => errObj ("Shopify API error: " ++ noItemsMsg)
        | some pageFields =>
          match mergePages pageFields with
          | none => errObj ("Shopify API error: " ++ noExtendMsg)
          | some combined => JValue.obj (truncateAllFields combined)

/-! ## Agent wrapper (`agent.py` lines 148-238)

`run_agent` validates its inputs, then executes `agent.invoke` inside
`try/except Exception`; the agent's final free-form text is parsed by
`parse_agent_response`, which always yields a dict with `text`, `tables`
and `chart_data` keys.  The LLM reasoning loop and the free-form-text
parsing are the external collaborator boundary (spec §1, §9):
`InvokeOutcome.returnsParsed` carries the already-parsed result dict.
What matters for the pipeline is that every exception raised inside
`agent.invoke` — including anything a tool could let escape — is caught
and converted to a plain result dict, so `run_agent` returns normally in
all these cases. -/

/-- Helper for `containsSub`: does `needle` occur in the list? -/
def containsSubAux (needle : List Char) : List Char → Bool
  | [] => needle.isEmpty
  | c :: rest => needle.isPrefixOf (c :: rest) || containsSubAux needle rest

/-- `needle in hay` on Python strings. -/
def containsSub (needle hay : String) : Bool := containsSubAux needle.data hay.data

/-- A `{"text": ..., "tables": [], "chart_data": []}` dict as built by
the error branches of `run_agent`. -/
def textOnlyResult (t : String) : List (String × JValue) :=
  [("text", JValue.str t), ("tables", JValue.arr []), ("chart_data", JValue.arr [])]

/-- Outcome of the `agent.invoke` call inside `run_agent`: either a
final response (already parsed by `parse_agent_response`), or an
exception `e` with message `str(e)`. -/
inductive InvokeOutcome where
  | returnsParsed (result : List (String × JValue))
  | raisesWith (errStr : String)

/-- The result dict returned by `run_agent` (`agent.py` lines 184-238)
as a function of the `agent.invoke` outcome: the parsed response on
success, or one of the fixed user-facing error dicts chosen by substring
tests on `str(e)`.  In every case a dict is returned — no exception from
the invoke propagates. -/
def run_agent_result (inv : InvokeOutcome) : List (String × JValue) :=
  match inv with
  | InvokeOutcome.returnsParsed r => r
  | InvokeOutcome.raisesWith e =>
    if containsSub "RESOURCE_EXHAUSTED" e || containsSub "429" e then
      textOnlyResult "⚠️ API quota exceeded. Please wait a moment and try again, or upgrade your API plan."
    else if containsSub "NOT_FOUND" e || containsSub "404" e then
      textOnlyResult "⚠️ AI model unavailable. Please try again later."
    else if containsSub "connection" e.toLower || containsSub "timeout" e.toLower then
      textOnlyResult "⚠️ Connection error. Please check your internet and try again."
    else if containsSub "PERMISSION_DENIED" e || containsSub "401" e || containsSub "403" e then
      textOnlyResult "⚠️ API authentication failed. Please check your API key."
    else
      textOnlyResult "⚠️ Unable to process your request. Please try again or simplify your query."

/-! ## Request pipeline (`views.py`) -/

/-- How the `execute_with_timeout(run_agent, ...)` call in `chat` ends:
a result dict, a pipeline timeout, or one of the exception classes
distinguished by the handler's `except` clauses. -/
inductive AgentOutcome where
  | ok (result : List (String × JValue))
  | timeoutErr
  | rateLimitErr
  | shopifyApiErr
  | valueErr
  | otherErr

/-- An HTTP response of the chat endpoint: status code and JSON body. -/
structure RespModel where
  status : Nat
  body : List (String × JValue)

/-- `create_response` (`views.py` lines 31-37): `None` text becomes
`""`; `tables` and `chart_data` are kept only when they are lists,
anything else becomes `[]`. -/
def create_response (text tables chart : JValue) : List (String × JValue) :=
  [("text", match text with | JValue.null => JValue.str "" | t => t),
   ("tables", match tables with | JValue.arr xs => JValue.arr xs | _ => JValue.arr []),
   ("chart_data", match chart with | JValue.arr xs => JValue.arr xs | _ => JValue.arr [])]

/-- `create_error_response` (`views.py` lines 40-45):
`{"error": message, **create_response()}` with the given status
(`create_response()` defaults: `text=""`, `tables=None`,
`chart_data=None`). -/
def create_error_response (msg : String) (statusCode : Nat) : RespModel :=
  ⟨statusCode, ("error", JValue.str msg) :: create_response (JValue.str "") JValue.null JValue.null⟩

/-- Python `data.get(k)`: `None` both for a missing key and for an
explicit JSON `null` value. -/
def pyGetJ (data : List (String × JValue)) (k : String) : JValue :=
  match lookupKey data k with
  | none => JValue.null
  | some v => v

/-- Python `s.strip()`: drop whitespace from both ends. -/
def pyStrip (s : String) : String :=
  String.mk (((s.data.dropWhile Char.isWhitespace).reverse.dropWhile Char.isWhitespace).reverse)

/-- The `if/elif` validation chain of `chat` for one field (`views.py`
lines 76-90): `None` (missing key or JSON `null`) → `'... is required'`,
non-string → `'... must be a string'`, empty after `strip()` →
`'... cannot be empty'`; at most one message per field. -/
def validateField (name : String) (v : JValue) : List String :=
  match v with
  | JValue.null => ["\x27" ++ name ++ "\x27 is required"]
  | JValue.str s => if pyStrip s = "" then ["\x27" ++ name ++ "\x27 cannot be empty"] else []
  | _ => ["\x27" ++ name ++ "\x27 must be a string"]

/-- Claim-side validation of one field, written from the spec wording
(§4.4 step 3): the field must be present (a JSON `null` is `None`, hence
missing), be a string, and be non-empty after trimming; the detail
message reports the first failed check. -/
def fieldViolations (name : String) (v : JValue) : List String :=
  match v with
  | JValue.null => ["\x27" ++ name ++ "\x27 is required"]
  | JValue.str s => if pyStrip s = "" then ["\x27" ++ name ++ "\x27 cannot be empty"] else []
  | _ => ["\x27" ++ name ++ "\x27 must be a string"]

/-- The `chat` handler (`views.py` lines 50-153) from JSON parsing
onward, with the agent call abstracted by an `AgentOutcome`:
`body = none` models a `json.JSONDecodeError`; then the `store_url` and
`query` validations accumulate their error messages (each field's
`if/elif` chain contributes at most one); a nonempty error list
short-circuits to a 400 `Validation failed` response without consulting
the agent; otherwise the agent outcome is mapped to a 200 response
through `create_response`, or to the fixed error responses
(504 timeout, 429 rate limit, 502 Shopify API error, 400 ValueError,
500 catch-all).  The preceding request-size gate (`views.py` lines
52-62) is independent of everything modelled here. -/
def chat (body : Option (List (String × JValue))) (agent : AgentOutcome) : RespModel :=
  match body with
  | none => create_error_response "Invalid JSON format." 400
  | some data =>
    let errors := validateField "store_url" (pyGetJ data "store_url")
      ++ validateField "query" (pyGetJ data "query")
    if errors ≠ [] then
      ⟨400, ("error", JValue.str "Validation failed") ::
        ("details", JValue.arr (errors.map JValue.str)) ::
        create_response (JValue.str "") JValue.null JValue.null⟩
    else
      match agent with
      | AgentOutcome.ok result =>
        ⟨200, create_response
          (match lookupKey result "text" with | none => JValue.str "" | some v => v)
          (pyGetJ result "tables") (pyGetJ result "chart_data")⟩
      | AgentOutcome.timeoutErr =>
        create_error_response "Request timed out. Please try a simpler query." 504
      | AgentOutcome.rateLimitErr =>
        create_error_response "Shopify API rate limit exceeded. Please try again later." 429
      | AgentOutcome.shopifyApiErr =>
        create_error_response "Unable to communicate with Shopify. Please try again." 502
      | AgentOutcome.valueErr =>
        create_error_response "Invalid request parameters." 400
      | AgentOutcome.otherErr =>
        create_error_response "An error occurred while processing your request. Please try again." 500

/-! ## Shared concrete fixtures -/

/-- A valid configuration (token, API version and default store set). -/
def cfgOk : ShopifyCfg := ⟨some "token", some "2025-04", some "test-store.myshopify.com"⟩

/-- A scripted 429 response without `Retry-After`. -/
def resp429 : HttpResp := ⟨429, "Too Many Requests", "Rate limited", none, none, JValue.null⟩

/-- A scripted 429 response with `Retry-After: 5`. -/
def resp429RA5 : HttpResp := ⟨429, "Too Many Requests", "Rate limited", some "5", none, JValue.null⟩

/-- A scripted 200 response with a small products payload. -/
def resp200 : HttpResp := ⟨200, "OK", "", none, none, JValue.obj [("products", JValue.arr [])]⟩

/-- A request body that passes validation. -/
def validChatBody : List (String × JValue) :=
  [("store_url", JValue.str "test-store.myshopify.com"), ("query", JValue.str "Show me products")]

/-! ## C4: non-429 HTTP errors fail immediately -/

/-- C4: for every response with status ≥ 400 other than 429,
`get_shopify_data` raises `ShopifyHTTPError` immediately after that
single attempt, with zero retries (no sleeps), carrying the matching
status code, reason phrase (in the message) and response body. -/
theorem http_error_immediate (cfg : ShopifyCfg) (endpoint : String)
    (storeUrl : Option String) (r : Nat) (b : ℚ) (resp : HttpResp) (rest : List HttpResp)
    (htok : pyTruthy cfg.accessToken = true) (hver : pyTruthy cfg.apiVersion = true)
    (hshop : pyTruthy (if pyTruthy storeUrl then storeUrl else cfg.shopName) = true)
    (h400 : 400 ≤ resp.status) (h429 : resp.status ≠ 429) :
    (get_shopify_data cfg endpoint storeUrl r b (resp :: rest)).outcome
        = ClientOutcome.httpError ("HTTP " ++ toString resp.status ++ ": " ++ resp.reason)
            resp.status resp.body
      ∧ (get_shopify_data cfg endpoint storeUrl r b (resp :: rest)).attempts = 1
      ∧ (get_shopify_data cfg endpoint storeUrl r b (resp :: rest)).sleeps = [] := by
  unfold get_shopify_data
  simp [htok, hver, hshop, runClientAux, h429, h400]

/-- Witness for `http_error_immediate`: a 404 response raises
`ShopifyHTTPError` with zero retries and the matching status code. -/
theorem http_error_immediate_witness :
    (get_shopify_data cfgOk "products.json" none 5 1
        [⟨404, "Not Found", "nf", none, none, JValue.null⟩]).outcome
        = ClientOutcome.httpError ("HTTP " ++ toString 404 ++ ": " ++ "Not Found") 404 "nf"
      ∧ (get_shopify_data cfgOk "products.json" none 5 1
          [⟨404, "Not Found", "nf", none, none, JValue.null⟩]).attempts = 1
      ∧ (get_shopify_data cfgOk "products.json" none 5 1
          [⟨404, "Not Found", "nf", none, none, JValue.null⟩]).sleeps = [] :=
  http_error_immediate cfgOk "products.json" none 5 1
    ⟨404, "Not Found", "nf", none, none, JValue.null⟩ [] rfl rfl rfl (by norm_num) (by norm_num)

/-! ## C7: pagination driver -/

/-- Without a page cap the loop runs to the first page with no cursor. -/
theorem getAllLoop_none_eq (script : List PageResult) (c : Nat) :
    getAllLoop script none c = takeThroughCursor script := by
  induction script generalizing c with
  | nil => simp [getAllLoop, takeThroughCursor]
  | cons r rest ih => simp [getAllLoop, takeThroughCursor, capReached, ih]

/-- Once the cap test fires the loop yields nothing. -/
theorem getAllLoop_capped (script : List PageResult) (maxPages : Option Int) (c : Nat)
    (h : capReached maxPages c = true) : getAllLoop script maxPages c = [] := by
  cases script <;> simp [getAllLoop, h]

/-- With a positive page cap the loop result is the uncapped result
truncated to the remaining budget. -/
theorem getAllLoop_some_eq (script : List PageResult) (m : Int) :
    ∀ c : Nat, (c : Int) < m →
      getAllLoop script (some m) c = (takeThroughCursor script).take (m - c).toNat := by
  induction script with
  | nil => intro c hc; simp [getAllLoop, takeThroughCursor]
  | cons r rest ih =>
    intro c hc
    have hm0 : ¬(m = 0) := by omega
    have hcond : ¬(m ≤ (c : Int)) := not_le.mpr hc
    have htake : (m - c).toNat = (m - ((c + 1 : Nat) : Int)).toNat + 1 := by
      push_cast
      omega
    rw [getAllLoop, if_neg (by simp [capReached, hm0, hcond]), takeThroughCursor, htake,
      List.take_succ_cons]
    cases hnext : pyTruthy r.nextPageUrl with
    | false => simp
    | true =>
      simp only [if_pos rfl, List.cons.injEq, true_and]
      by_cases h2 : ((c + 1 : Nat) : Int) < m
      · exact ih (c + 1) h2
      · have hm1 : m ≤ ((c + 1 : Nat) : Int) := not_lt.mp h2
        have hz : (m - ((c + 1 : Nat) : Int)).toNat = 0 := by omega
        rw [hz, List.take_zero]
        exact getAllLoop_capped rest (some m) (c + 1)
          (by simp [capReached, hm0]; omega)

/-- C7 (amended): the driver appends page payloads in page order and
stops at the first page whose next cursor is missing; when `maxPages` is
given and positive the returned sequence is additionally truncated to at
most `maxPages` pages.  `maxPages = 0` does NOT cap the result: the
Python cap check `if max_pages and page_count >= max_pages` treats `0`
as falsy, so `0` disables the cap exactly like `None` (see the
counterexample `max_pages_zero_counterexample`). -/
theorem pagination_driver_amended :
    (∀ script : List PageResult, get_all_shopify_data script none = takeThroughCursor script) ∧
    (∀ (script : List PageResult) (m : Int), 0 < m →
      get_all_shopify_data script (some m) = (takeThroughCursor script).take m.toNat) ∧
    (∀ (script : List PageResult) (m : Int), 0 < m →
      (get_all_shopify_data script (some m)).length ≤ m.toNat) := by
  have h2 : ∀ (script : List PageResult) (m : Int), 0 < m →
      get_all_shopify_data script (some m) = (takeThroughCursor script).take m.toNat := by
    intro script m hm
    have := getAllLoop_some_eq script m 0 (by exact_mod_cast hm)
    simpa [get_all_shopify_data] using this
  refine ⟨fun script => getAllLoop_none_eq script 0, h2, fun script m hm => ?_⟩
  rw [h2 script m hm]
  exact List.length_take_le _ _

/-- Witness for `pagination_driver_amended`: three scripted pages and a
cap of 2 give exactly the first two payloads. -/
theorem pagination_driver_amended_witness :
    get_all_shopify_data
        [⟨JValue.num 1, some "u"⟩, ⟨JValue.num 2, some "u"⟩, ⟨JValue.num 3, none⟩] (some 2)
      = (takeThroughCursor
          [⟨JValue.num 1, some "u"⟩, ⟨JValue.num 2, some "u"⟩, ⟨JValue.num 3, none⟩]).take
          (2 : Int).toNat
    ∧ (get_all_shopify_data
        [⟨JValue.num 1, some "u"⟩, ⟨JValue.num 2, some "u"⟩, ⟨JValue.num 3, none⟩]
        (some 2)).length ≤ (2 : Int).toNat :=
  ⟨pagination_driver_amended.2.1
      [⟨JValue.num 1, some "u"⟩, ⟨JValue.num 2, some "u"⟩, ⟨JValue.num 3, none⟩] 2 (by norm_num),
    pagination_driver_amended.2.2
      [⟨JValue.num 1, some "u"⟩, ⟨JValue.num 2, some "u"⟩, ⟨JValue.num 3, none⟩] 2 (by norm_num)⟩

/-- C7 counterexample: with `maxPages = 0` the driver still fetches — a
one-page script yields one payload, so the returned sequence does not
have length at most `maxPages` for `maxPages = 0` as the claim states. -/
theorem max_pages_zero_counterexample :
    get_all_shopify_data [⟨JValue.null, none⟩] (some 0) = [JValue.null]
      ∧ (get_all_shopify_data [⟨JValue.null, none⟩] (some 0)).length = 1
      ∧ ¬((get_all_shopify_data [⟨JValue.null, none⟩] (some 0)).length ≤ 0) := by
  have h1 : (get_all_shopify_data [⟨JValue.null, none⟩] (some 0)).length = 1 := rfl
  exact ⟨rfl, h1, by omega⟩

/-! ## C1: page merging in the tool layer -/

/-- Per-key semantics of one merge step (spec-side): what the value
under a key becomes when a page contributes `v`, given the previous
value `old`; `none` is the `AttributeError` case (extending a non-list). -/
def stepSem (old : Option JValue) (v : JValue) : Option JValue :=
  match v with
  | JValue.arr vs =>
    match old with
    | none => some (JValue.arr vs)
    | some (JValue.arr us) => some (JValue.arr (us ++ vs))
    | some _ => none
  | v => some v

theorem lookup_setKey_self (c : List (String × JValue)) (k : String) (v : JValue) :
    lookupKey (setKey c k v) k = some v := by
  induction c with
  | nil => simp [setKey, lookupKey]
  | cons kv rest ih =>
    obtain ⟨k2, w⟩ := kv
    by_cases h : k2 = k
    · simp [setKey, lookupKey, h]
    · simp [setKey, lookupKey, h, ih]

theorem lookup_setKey_other (c : List (String × JValue)) (k2 k : String) (v : JValue)
    (h : k2 ≠ k) : lookupKey (setKey c k2 v) k = lookupKey c k := by
  induction c with
  | nil => simp [setKey, lookupKey, h]
  | cons kv rest ih =>
    obtain ⟨k3, w⟩ := kv
    by_cases h3 : k3 = k2
    · subst h3
      simp [setKey, lookupKey, h]
    · simp only [setKey, if_neg h3]
      by_cases h4 : k3 = k
      · simp [lookupKey, h4]
      · simp [lookupKey, h4, ih]

theorem lookupKey_eq_none_of_not_mem (p : List (String × JValue)) (k : String)
    (h : k ∉ p.map Prod.fst) : lookupKey p k = none := by
  induction p with
  | nil => rfl
  | cons kv rest ih =>
    obtain ⟨k2, w⟩ := kv
    simp only [List.map_cons, List.mem_cons] at h
    push_neg at h
    have hne : ¬(k2 = k) := fun hc => h.1 (hc ▸ rfl)
    simp [lookupKey, hne, ih h.2]

theorem setKey_setKey (c : List (String × JValue)) (k : String) (v1 v2 : JValue) :
    setKey (setKey c k v1) k v2 = setKey c k v2 := by
  induction c with
  | nil => simp [setKey]
  | cons kv rest ih =>
    obtain ⟨k2, w⟩ := kv
    by_cases h : k2 = k
    · simp [setKey, h]
    · simp [setKey, h, ih]

/-- Characterization of one merge step: the combined dict is updated at
the key with the per-key result of `stepSem`, and the step fails exactly
when `stepSem` does. -/
theorem mergeEntry_eq (c : List (String × JValue)) (k : String) (v : JValue) :
    mergeEntry c k v = Option.map (setKey c k) (stepSem (lookupKey c k) v) := by
  unfold mergeEntry stepSem
  rcases hl : lookupKey c k with _ | w
  · cases v <;>
      simp [hl, lookup_setKey_self, setKey_setKey]
  · cases w <;> cases v <;> simp [hl, setKey_setKey]

theorem mergeEntry_lookup_other (c : List (String × JValue)) (k2 k : String) (v : JValue)
    (c2 : List (String × JValue)) (h : k2 ≠ k) (hm : mergeEntry c k2 v = some c2) :
    lookupKey c2 k = lookupKey c k := by
  rw [mergeEntry_eq] at hm
  rcases hs : stepSem (lookupKey c k2) v with _ | w
  · rw [hs] at hm
    exact absurd hm (by simp)
  · rw [hs] at hm
    rw [Option.map, Option.some.injEq] at hm
    rw [← hm]
    exact lookup_setKey_other c k2 k w h

theorem mergeEntry_lookup_self (c : List (String × JValue)) (k : String) (v : JValue)
    (c2 : List (String × JValue)) (hm : mergeEntry c k v = some c2) :
    ∃ w, stepSem (lookupKey c k) v = some w ∧ lookupKey c2 k = some w := by
  rw [mergeEntry_eq] at hm
  rcases hs : stepSem (lookupKey c k) v with _ | w
  · rw [hs] at hm
    exact absurd hm (by simp)
  · rw [hs] at hm
    rw [Option.map, Option.some.injEq] at hm
    rw [← hm]
    exact ⟨w, rfl, lookup_setKey_self c k w⟩

/-- Merging a page that does not define `k` leaves the value under `k`
unchanged. -/
theorem mergePage_lookup_absent (p : List (String × JValue)) :
    ∀ (c c2 : List (String × JValue)) (k : String), lookupKey p k = none →
      mergePage c p = some c2 → lookupKey c2 k = lookupKey c k := by
  induction p with
  | nil =>
    intro c c2 k _ hm
    simp only [mergePage, Option.some.injEq] at hm
    rw [hm]
  | cons kv rest ih =>
    intro c c2 k hk hm
    obtain ⟨k2, v⟩ := kv
    have hne : ¬(k2 = k) := by
      intro heq
      simp [lookupKey, heq] at hk
    have hrest : lookupKey rest k = none := by
      simpa [lookupKey, hne] using hk
    simp only [mergePage] at hm
    rcases he : mergeEntry c k2 v with _ | c3
    · rw [he] at hm
      exact absurd hm (by simp)
    · rw [he] at hm
      rw [ih c3 c2 k hrest hm]
      exact mergeEntry_lookup_other c k2 k v c3 hne he

/-- Merging a page with unique keys that defines `k` with value `v`
updates the value under `k` by `stepSem`. -/
theorem mergePage_lookup_present (p : List (String × JValue)) :
    ∀ (c c2 : List (String × JValue)) (k : String) (v : JValue),
      (p.map Prod.fst).Nodup → lookupKey p k = some v →
      mergePage c p = some c2 →
      ∃ w, stepSem (lookupKey c k) v = some w ∧ lookupKey c2 k = some w := by
  induction p with
  | nil =>
    intro c c2 k v _ hk _
    exact absurd hk (by simp [lookupKey])
  | cons kv rest ih =>
    intro c c2 k v hnd hk hm
    obtain ⟨k2, u⟩ := kv
    simp only [List.map_cons, List.nodup_cons] at hnd
    simp only [mergePage] at hm
    rcases he : mergeEntry c k2 u with _ | c3
    · rw [he] at hm
      exact absurd hm (by simp)
    · rw [he] at hm
      by_cases hkk : k2 = k
      · subst hkk
        have huv : u = v := by simpa [lookupKey] using hk
        subst huv
        obtain ⟨w, hw1, hw2⟩ := mergeEntry_lookup_self c k2 u c3 he
        have hrest : lookupKey rest k2 = none :=
          lookupKey_eq_none_of_not_mem rest k2 hnd.1
        have := mergePage_lookup_absent rest c3 c2 k2 hrest hm
        exact ⟨w, hw1, by rw [this]; exact hw2⟩
      · have hkr : lookupKey rest k = some v := by
          simpa [lookupKey, hkk] using hk
        obtain ⟨w, hw1, hw2⟩ := ih c3 c2 k v hnd.2 hkr hm
        refine ⟨w, ?_, hw2⟩
        rw [← hw1, mergeEntry_lookup_other c k2 k u c3 hkk he]

/-- Folding pages none of which define `k` leaves the value under `k`
unchanged. -/
theorem mergePagesAux_lookup_absent (pages : List (List (String × JValue))) :
    ∀ (acc M : List (String × JValue)) (k : String),
      keyOccurrences k pages = [] → mergePagesAux acc pages = some M →
      lookupKey M k = lookupKey acc k := by
  induction pages with
  | nil =>
    intro acc M k _ hM
    simp only [mergePagesAux, Option.some.injEq] at hM
    rw [hM]
  | cons p ps ih =>
    intro acc M k hocc hM
    simp only [keyOccurrences, List.filterMap_cons] at hocc
    rcases hp : lookupKey p k with _ | v
    · rw [hp] at hocc
      simp only [mergePagesAux] at hM
      rcases hmp : mergePage acc p with _ | c2
      · rw [hmp] at hM
        exact absurd hM (by simp)
      · rw [hmp] at hM
        rw [ih c2 M k hocc hM]
        exact mergePage_lookup_absent p acc c2 k hp hmp
    · rw [hp] at hocc
      exact absurd hocc (by simp)

/-- The occurrence list and concatenation for a page that does not
define `k` are those of the remaining pages. -/
theorem concatKey_cons_none (k : String) (p : List (String × JValue))
    (ps : List (List (String × JValue))) (hp : lookupKey p k = none) :
    keyOccurrences k (p :: ps) = keyOccurrences k ps
      ∧ concatKey k (p :: ps) = concatKey k ps := by
  have h1 : keyOccurrences k (p :: ps) = keyOccurrences k ps := by
    simp [keyOccurrences, List.filterMap_cons, hp]
  exact ⟨h1, by simp [concatKey, h1]⟩

/-- The occurrence list and concatenation for a page defining `k` with a
list value. -/
theorem concatKey_cons_arr (k : String) (p : List (String × JValue))
    (ps : List (List (String × JValue))) (xs : List JValue)
    (hp : lookupKey p k = some (JValue.arr xs)) :
    keyOccurrences k (p :: ps) = JValue.arr xs :: keyOccurrences k ps
      ∧ concatKey k (p :: ps) = xs ++ concatKey k ps := by
  have h1 : keyOccurrences k (p :: ps) = JValue.arr xs :: keyOccurrences k ps := by
    simp [keyOccurrences, List.filterMap_cons, hp]
  exact ⟨h1, by simp [concatKey, h1]⟩

/-- List-valued case: folding pages all of whose occurrences of `k` are
lists appends their elements, in page order, to the list already under
`k` (or starts from the first defining page when `k` is absent). -/
theorem mergePagesAux_lookup_arr (pages : List (List (String × JValue))) :
    ∀ (acc M : List (String × JValue)) (k : String),
      (∀ p ∈ pages, (p.map Prod.fst).Nodup) →
      (∀ v ∈ keyOccurrences k pages, ∃ xs, v = JValue.arr xs) →
      mergePagesAux acc pages = some M →
      (∀ ws, lookupKey acc k = some (JValue.arr ws) →
        lookupKey M k = some (JValue.arr (ws ++ concatKey k pages))) ∧
      (lookupKey acc k = none → keyOccurrences k pages ≠ [] →
        lookupKey M k = some (JValue.arr (concatKey k pages))) := by
  induction pages with
  | nil =>
    intro acc M k _ _ hM
    simp only [mergePagesAux, Option.some.injEq] at hM
    subst hM
    constructor
    · intro ws hws
      simpa [concatKey, keyOccurrences] using hws
    · intro _ hocc
      exact absurd rfl hocc
  | cons p ps ih =>
    intro acc M k hnd hall hM
    simp only [mergePagesAux] at hM
    rcases hmp : mergePage acc p with _ | c2
    · rw [hmp] at hM
      exact absurd hM (by simp)
    · rw [hmp] at hM
      have hndp := hnd p (List.mem_cons_self p ps)
      have hndps : ∀ q ∈ ps, (q.map Prod.fst).Nodup :=
        fun q hq => hnd q (List.mem_cons_of_mem p hq)
      rcases hp : lookupKey p k with _ | v
      · -- this page does not define k
        obtain ⟨hocc, hcc⟩ := concatKey_cons_none k p ps hp
        have hallps : ∀ v ∈ keyOccurrences k ps, ∃ xs, v = JValue.arr xs :=
          fun v hv => hall v (by rw [hocc]; exact hv)
        have htrans := mergePage_lookup_absent p acc c2 k hp hmp
        obtain ⟨ih1, ih2⟩ := ih c2 M k hndps hallps hM
        constructor
        · intro ws hws
          rw [hcc]
          exact ih1 ws (by rw [htrans]; exact hws)
        · intro hacc hocc2
          rw [hcc]
          exact ih2 (by rw [htrans]; exact hacc) (by rw [← hocc]; exact hocc2)
      · -- this page defines k with value v, necessarily a list
        obtain ⟨xs, rfl⟩ : ∃ xs, v = JValue.arr xs := by
          refine hall v ?_
          simp [keyOccurrences, List.filterMap_cons, hp]
        obtain ⟨hocc, hcc⟩ := concatKey_cons_arr k p ps xs hp
        have hallps : ∀ v ∈ keyOccurrences k ps, ∃ ys, v = JValue.arr ys :=
          fun v hv => hall v (by rw [hocc]; exact List.mem_cons_of_mem _ hv)
        obtain ⟨w, hw1, hw2⟩ :=
          mergePage_lookup_present p acc c2 k (JValue.arr xs) hndp hp hmp
        obtain ⟨ih1, _⟩ := ih c2 M k hndps hallps hM
        constructor
        · intro ws hws
          rw [hws] at hw1
          simp only [stepSem, Option.some.injEq] at hw1
          rw [← hw1] at hw2
          rw [hcc]
          have := ih1 (ws ++ xs) hw2
          rw [this, List.append_assoc]
        · intro hacc _
          rw [hacc] at hw1
          simp only [stepSem, Option.some.injEq] at hw1
          rw [← hw1] at hw2
          rw [hcc]
          exact ih1 xs hw2

/-- Non-list case: each page defining `k` overwrites the value under
`k`, so the fold ends with the value from the LAST defining page. -/
theorem mergePagesAux_lookup_nonarr (pages : List (List (String × JValue))) :
    ∀ (acc M : List (String × JValue)) (k : String),
      (∀ p ∈ pages, (p.map Prod.fst).Nodup) →
      (∀ v ∈ keyOccurrences k pages, ∀ xs, v ≠ JValue.arr xs) →
      mergePagesAux acc pages = some M →
      ∀ v, (keyOccurrences k pages).getLast? = some v → lookupKey M k = some v := by
  induction pages with
  | nil =>
    intro acc M k _ _ _ v hv
    exact absurd hv (by simp [keyOccurrences])
  | cons p ps ih =>
    intro acc M k hnd hall hM v hv
    simp only [mergePagesAux] at hM
    rcases hmp : mergePage acc p with _ | c2
    · rw [hmp] at hM
      exact absurd hM (by simp)
    · rw [hmp] at hM
      have hndp := hnd p (List.mem_cons_self p ps)
      have hndps : ∀ q ∈ ps, (q.map Prod.fst).Nodup :=
        fun q hq => hnd q (List.mem_cons_of_mem p hq)
      rcases hp : lookupKey p k with _ | u
      · obtain ⟨hocc, _⟩ := concatKey_cons_none k p ps hp
        rw [hocc] at hv
        have hallps : ∀ w ∈ keyOccurrences k ps, ∀ xs, w ≠ JValue.arr xs :=
          fun w hw => hall w (by rw [hocc]; exact hw)
        exact ih c2 M k hndps hallps hM v hv
      · have hocc : keyOccurrences k (p :: ps) = u :: keyOccurrences k ps := by
          simp [keyOccurrences, List.filterMap_cons, hp]
        have hu : ∀ xs, u ≠ JValue.arr xs := by
          refine hall u ?_
          rw [hocc]
          exact List.mem_cons_self u _
        obtain ⟨w, hw1, hw2⟩ := mergePage_lookup_present p acc c2 k u hndp hp hmp
        have hwu : w = u := by
          rcases u with _ | _ | _ | _ | us | _
          · simpa [stepSem] using hw1.symm
          · simpa [stepSem] using hw1.symm
          · simpa [stepSem] using hw1.symm
          · simpa [stepSem] using hw1.symm
          · exact absurd rfl (hu us)
          · simpa [stepSem] using hw1.symm
        subst hwu
        rw [hocc] at hv
        rcases hops : keyOccurrences k ps with _ | ⟨o, os⟩
        · rw [hops] at hv
          simp only [List.getLast?_singleton, Option.some.injEq] at hv
          subst hv
          rw [mergePagesAux_lookup_absent ps c2 M k hops hM]
          exact hw2
        · have hallps : ∀ w2 ∈ keyOccurrences k ps, ∀ xs, w2 ≠ JValue.arr xs :=
            fun w2 hw => hall w2 (by rw [hocc]; exact List.mem_cons_of_mem _ hw)
          have hlast : (keyOccurrences k ps).getLast? = some v := by
            rw [hops]
            rw [hops] at hv
            simpa [List.getLast?_cons_cons] using hv
          exact ih c2 M k hndps hallps hM v hlast

/-- C1 (amended): in the merged result of `get_all_shopify_data_tool`,
for every top-level key whose values are lists on every page that
defines it (and that is defined on at least one page), the merged value
is the concatenation of those lists in page order; for every top-level
key whose values are never lists, the merged value is the value from the
LAST page that defines it (each later page overwrites the earlier value
— the claim's "first page wins, later pages ignored" is refuted by
`merge_nonlist_first_page_counterexample`).  Pages are dicts, so their
keys are assumed unique; `mergePages pages = some M` states that the
merge ran without an `AttributeError`. -/
theorem merge_semantics_amended (pages : List (List (String × JValue)))
    (M : List (String × JValue)) (k : String)
    (hnd : ∀ p ∈ pages, (p.map Prod.fst).Nodup)
    (hM : mergePages pages = some M) :
    ((keyOccurrences k pages ≠ [] ∧ ∀ v ∈ keyOccurrences k pages, ∃ xs, v = JValue.arr xs) →
      lookupKey M k = some (JValue.arr (concatKey k pages))) ∧
    ((∀ v ∈ keyOccurrences k pages, ∀ xs, v ≠ JValue.arr xs) →
      lookupKey M k = (keyOccurrences k pages).getLast?) := by
  constructor
  · intro ⟨hocc, hall⟩
    exact (mergePagesAux_lookup_arr pages [] M k hnd hall hM).2 rfl hocc
  · intro hall
    rcases hlast : (keyOccurrences k pages).getLast? with _ | v
    · have hocc : keyOccurrences k pages = [] := by
        rcases hocc2 : keyOccurrences k pages with _ | ⟨o, os⟩
        · rfl
        · rw [hocc2] at hlast
          exact absurd hlast (by simp)
      rw [mergePagesAux_lookup_absent pages [] M k hocc hM]
      rfl
    · exact mergePagesAux_lookup_nonarr pages [] M k hnd hall hM v hlast

/-- Witness for `merge_semantics_amended`: the spec's own aggregation
example — pages `{"products":[1]}` and `{"products":[2],"x":"a"}` merge
to `products = [1,2]` (concatenated) and `x = "a"`. -/
theorem merge_semantics_amended_witness :
    lookupKey [("products", JValue.arr [JValue.num 1, JValue.num 2]), ("x", JValue.str "a")]
        "products"
      = some (JValue.arr (concatKey "products"
          [[("products", JValue.arr [JValue.num 1])],
            [("products", JValue.arr [JValue.num 2]), ("x", JValue.str "a")]]))
    ∧ lookupKey [("products", JValue.arr [JValue.num 1, JValue.num 2]), ("x", JValue.str "a")]
        "x"
      = (keyOccurrences "x"
          [[("products", JValue.arr [JValue.num 1])],
            [("products", JValue.arr [JValue.num 2]), ("x", JValue.str "a")]]).getLast? :=
  ⟨(merge_semantics_amended
      [[("products", JValue.arr [JValue.num 1])],
        [("products", JValue.arr [JValue.num 2]), ("x", JValue.str "a")]]
      [("products", JValue.arr [JValue.num 1, JValue.num 2]), ("x", JValue.str "a")]
      "products" (by simp) rfl).1
      ⟨by simp [keyOccurrences, lookupKey], by
        intro v hv
        simp only [keyOccurrences, List.filterMap_cons, lookupKey] at hv
        simp at hv
        rcases hv with rfl | rfl
        · exact ⟨[JValue.num 1], rfl⟩
        · exact ⟨[JValue.num 2], rfl⟩⟩,
    (merge_semantics_amended
      [[("products", JValue.arr [JValue.num 1])],
        [("products", JValue.arr [JValue.num 2]), ("x", JValue.str "a")]]
      [("products", JValue.arr [JValue.num 1, JValue.num 2]), ("x", JValue.str "a")]
      "x" (by simp) rfl).2
      (by
        intro v hv xs
        simp only [keyOccurrences, List.filterMap_cons, lookupKey] at hv
        simp at hv
        rcases hv with rfl
        intro h
        exact JValue.noConfusion h)⟩

/-- C1 counterexample: two pages both defining the non-list key `x`
(`"a"` then `"b"`).  The merged value under `x` is `"b"` — the value
from the LAST page — not `"a"` from the first page as the claim states:
the merge loop executes `combined_data[key] = value` unconditionally for
non-list values, overwriting earlier pages. -/
theorem merge_nonlist_first_page_counterexample :
    mergePages [[("x", JValue.str "a")], [("x", JValue.str "b")]]
        = some [("x", JValue.str "b")]
      ∧ (keyOccurrences "x" [[("x", JValue.str "a")], [("x", JValue.str "b")]]).head?
        = some (JValue.str "a")
      ∧ lookupKey [("x", JValue.str "b")] "x" = some (JValue.str "b")
      ∧ JValue.str "b" ≠ JValue.str "a" := by
  refine ⟨rfl, rfl, rfl, fun h => ?_⟩
  injection h with h2
  exact absurd h2 (by decide)

/-! ## C3: 429 retry loop -/

/-- The loop performs at most `retriesLeft + 1` attempts. -/
theorem runClientAux_attempts_le (o : Nat) (script : List HttpResp) :
    ∀ (r : Nat) (b : ℚ), (runClientAux o script r b).attempts ≤ r + 1 := by
  induction script with
  | nil => intro r b; simp [runClientAux]
  | cons resp rest ih =>
    intro r b
    by_cases h429 : resp.status = 429
    · cases r with
      | zero => simp [runClientAux, h429]
      | succ r' =>
        have := ih r' (b * 2)
        simp only [runClientAux, if_pos h429]
        omega
    · by_cases h400 : 400 ≤ resp.status <;> simp [runClientAux, h429, h400]

/-- The `i`-th sleep belongs to the `i`-th scripted response, which was
a 429, and its duration is that response's `waitTime` against the
backoff `b * 2 ^ i` (the initial backoff doubled once per earlier
retried attempt). -/
theorem runClientAux_sleeps_spec (o : Nat) (script : List HttpResp) :
    ∀ (r : Nat) (b : ℚ) (i : Nat), i < (runClientAux o script r b).sleeps.length →
      ∃ resp, script.get? i = some resp ∧ resp.status = 429 ∧
        (runClientAux o script r b).sleeps.get? i = some (waitTime resp (b * 2 ^ i)) := by
  induction script with
  | nil => intro r b i h; simp [runClientAux] at h
  | cons resp rest ih =>
    intro r b i h
    by_cases h429 : resp.status = 429
    · cases r with
      | zero => simp [runClientAux, h429] at h
      | succ r' =>
        simp only [runClientAux, if_pos h429] at h ⊢
        cases i with
        | zero =>
          refine ⟨resp, rfl, h429, ?_⟩
          simp [pow_zero, mul_one]
        | succ i' =>
          simp only [List.length_cons, Nat.add_lt_add_iff_right] at h
          obtain ⟨resp2, hr2, hs2, hw2⟩ := ih r' (b * 2) i' h
          refine ⟨resp2, hr2, hs2, ?_⟩
          have harith : b * 2 * 2 ^ i' = b * 2 ^ (i' + 1) := by ring
          simpa [harith] using hw2
    · by_cases h400 : 400 ≤ resp.status <;> simp [runClientAux, h429, h400] at h

/-- After `r + 1` consecutive 429 responses the loop raises
`ShopifyRateLimitError` with status 429 and the body of the last (the
`r`-th) response. -/
theorem runClientAux_exhaust (o : Nat) :
    ∀ (r : Nat) (script : List HttpResp) (b : ℚ) (last : HttpResp),
      script.get? r = some last →
      (∀ resp ∈ script.take (r + 1), resp.status = 429) →
      (runClientAux o script r b).outcome
        = ClientOutcome.rateLimitError
            ("Rate limit exceeded after " ++ toString o ++ " retries") 429 last.body := by
  intro r
  induction r with
  | zero =>
    intro script b last hget hall
    rcases script with _ | ⟨resp, rest⟩
    · exact absurd hget (by simp)
    · have hr : resp = last := by simpa using hget
      subst hr
      have h429 : resp.status = 429 := hall resp (by simp)
      simp [runClientAux, h429]
  | succ r' ih =>
    intro script b last hget hall
    rcases script with _ | ⟨resp, rest⟩
    · exact absurd hget (by simp)
    · have h429 : resp.status = 429 := hall resp (by simp)
      have hget2 : rest.get? r' = some last := by simpa using hget
      have hall2 : ∀ resp2 ∈ rest.take (r' + 1), resp2.status = 429 := by
        intro resp2 hmem
        exact hall resp2 (by simp [List.take_succ_cons]; right; exact hmem)
      simp only [runClientAux, if_pos h429]
      exact ih rest (b * 2) last hget2 hall2

/-- With valid configuration, `get_shopify_data` is the retry loop run
with `retriesLeft = maxRetries` and the given initial backoff. -/
theorem get_shopify_data_valid (cfg : ShopifyCfg) (e : String) (su : Option String)
    (r : Nat) (b : ℚ) (script : List HttpResp)
    (htok : pyTruthy cfg.accessToken = true) (hver : pyTruthy cfg.apiVersion = true)
    (hshop : pyTruthy (if pyTruthy su then su else cfg.shopName) = true) :
    (get_shopify_data cfg e su r b script).outcome = (runClientAux r script r b).outcome
      ∧ (get_shopify_data cfg e su r b script).attempts = (runClientAux r script r b).attempts
      ∧ (get_shopify_data cfg e su r b script).sleeps = (runClientAux r script r b).sleeps := by
  unfold get_shopify_data
  simp [htok, hver, hshop]

/-- C3: behaviour of the 429 retry loop of `get_shopify_data`.
(1) Every run performs at most `max_retries + 1` attempts.
(2) The `i`-th sleep of a run belongs to the `i`-th scripted response,
which was a 429; its duration is that response's `Retry-After` value
when the header is present and parses as a number, and otherwise the
current backoff, which starts at `initial_backoff` and doubles after
each retried attempt (`waitTime resp (b * 2 ^ i)`).
(3) With the defaults (`max_retries = 5`, `initial_backoff = 1.0`), two
429s followed by a 200 give exactly 3 attempts, sleeps `[1.0, 2.0]` and
the success payload.
(4) A `Retry-After: 5` header makes the first sleep exactly `5.0`
although the computed backoff is `1.0`.
(5) With valid configuration, `max_retries + 1` consecutive 429s
exhaust the budget and raise `ShopifyRateLimitError` carrying status 429
and the last response body. -/
theorem retry_loop_spec :
    (∀ (cfg : ShopifyCfg) (e : String) (su : Option String) (r : Nat) (b : ℚ)
        (script : List HttpResp),
      (get_shopify_data cfg e su r b script).attempts ≤ r + 1) ∧
    (∀ (cfg : ShopifyCfg) (e : String) (su : Option String) (r : Nat) (b : ℚ)
        (script : List HttpResp) (i : Nat),
      i < (get_shopify_data cfg e su r b script).sleeps.length →
      ∃ resp, script.get? i = some resp ∧ resp.status = 429 ∧
        (get_shopify_data cfg e su r b script).sleeps.get? i
          = some (waitTime resp (b * 2 ^ i))) ∧
    ((get_shopify_data cfgOk "products.json" none defaultMaxRetries defaultInitialBackoff
        [resp429, resp429, resp200]).attempts = 3
      ∧ (get_shopify_data cfgOk "products.json" none defaultMaxRetries defaultInitialBackoff
          [resp429, resp429, resp200]).sleeps = [1, 2]
      ∧ (get_shopify_data cfgOk "products.json" none defaultMaxRetries defaultInitialBackoff
          [resp429, resp429, resp200]).outcome
        = ClientOutcome.ok (JValue.obj [("products", JValue.arr [])]) none) ∧
    ((get_shopify_data cfgOk "products.json" none defaultMaxRetries defaultInitialBackoff
        [resp429RA5, resp200]).sleeps = [5]) ∧
    (∀ (cfg : ShopifyCfg) (e : String) (su : Option String) (r : Nat) (b : ℚ)
        (script : List HttpResp) (last : HttpResp),
      pyTruthy cfg.accessToken = true → pyTruthy cfg.apiVersion = true →
      pyTruthy (if pyTruthy su then su else cfg.shopName) = true →
      script.get? r = some last →
      (∀ resp ∈ script.take (r + 1), resp.status = 429) →
      (get_shopify_data cfg e su r b script).outcome
        = ClientOutcome.rateLimitError
            ("Rate limit exceeded after " ++ toString r ++ " retries") 429 last.body) := by
  have hcases : ∀ (cfg : ShopifyCfg) (e : String) (su : Option String) (r : Nat) (b : ℚ)
      (script : List HttpResp),
      ((get_shopify_data cfg e su r b script).attempts = 0
        ∧ (get_shopify_data cfg e su r b script).sleeps = [])
      ∨ ((get_shopify_data cfg e su r b script).attempts = (runClientAux r script r b).attempts
        ∧ (get_shopify_data cfg e su r b script).sleeps = (runClientAux r script r b).sleeps) := by
    intro cfg e su r b script
    unfold get_shopify_data
    by_cases h1 : pyTruthy cfg.accessToken = true
    · by_cases h2 : pyTruthy cfg.apiVersion = true
      · by_cases h3 : pyTruthy (if pyTruthy su = true then su else cfg.shopName) = true
        · right
          simp [h1, h2, h3]
        · left
          simp [h1, h2, h3]
      · left
        simp [h1, h2]
    · left
      simp [h1]
  refine ⟨?_, ?_, ⟨?_, ?_, ?_⟩, ?_, ?_⟩
  · intro cfg e su r b script
    rcases hcases cfg e su r b script with ⟨ha, _⟩ | ⟨ha, _⟩
    · omega
    · rw [ha]
      exact runClientAux_attempts_le r script r b
  · intro cfg e su r b script i h
    rcases hcases cfg e su r b script with ⟨_, hs⟩ | ⟨_, hs⟩
    · rw [hs] at h
      simp at h
    · rw [hs] at h ⊢
      exact runClientAux_sleeps_spec r script r b i h
  · rw [(get_shopify_data_valid cfgOk "products.json" none defaultMaxRetries
        defaultInitialBackoff [resp429, resp429, resp200] rfl rfl rfl).2.1]
    simp [runClientAux, resp429, resp200, defaultMaxRetries]
  · rw [(get_shopify_data_valid cfgOk "products.json" none defaultMaxRetries
        defaultInitialBackoff [resp429, resp429, resp200] rfl rfl rfl).2.2]
    simp [runClientAux, waitTime, resp429, resp200, defaultMaxRetries, defaultInitialBackoff]
  · rw [(get_shopify_data_valid cfgOk "products.json" none defaultMaxRetries
        defaultInitialBackoff [resp429, resp429, resp200] rfl rfl rfl).1]
    simp [runClientAux, resp429, resp200, defaultMaxRetries, parse_link_header]
  · rw [(get_shopify_data_valid cfgOk "products.json" none defaultMaxRetries
        defaultInitialBackoff [resp429RA5, resp200] rfl rfl rfl).2.2]
    simp [runClientAux, waitTime, resp429RA5, resp200, defaultMaxRetries,
      defaultInitialBackoff, pyFloat]
  · intro cfg e su r b script last htok hver hshop hget hall
    rw [(get_shopify_data_valid cfg e su r b script htok hver hshop).1]
    exact runClientAux_exhaust r r script b last hget hall

/-- Witness for `retry_loop_spec`: the first sleep of the
two-429s-then-200 run matches the backoff formula at index 0, and six
consecutive 429s with `max_retries = 5` raise `ShopifyRateLimitError`
with status 429 and the last body. -/
theorem retry_loop_spec_witness :
    (∃ resp, ([resp429, resp429, resp200] : List HttpResp).get? 0 = some resp
        ∧ resp.status = 429
        ∧ (get_shopify_data cfgOk "products.json" none 5 1
            [resp429, resp429, resp200]).sleeps.get? 0
          = some (waitTime resp (1 * 2 ^ 0)))
    ∧ (get_shopify_data cfgOk "orders.json" none 5 1
        [resp429, resp429, resp429, resp429, resp429, resp429]).outcome
      = ClientOutcome.rateLimitError
          ("Rate limit exceeded after " ++ toString 5 ++ " retries") 429 "Rate limited" :=
  ⟨retry_loop_spec.2.1 cfgOk "products.json" none 5 1 [resp429, resp429, resp200] 0
      (by
        rw [(get_shopify_data_valid cfgOk "products.json" none 5 1
          [resp429, resp429, resp200] rfl rfl rfl).2.2]
        simp [runClientAux, waitTime, resp429, resp200]),
    retry_loop_spec.2.2.2.2 cfgOk "orders.json" none 5 1
      [resp429, resp429, resp429, resp429, resp429, resp429] resp429 rfl rfl rfl rfl
      (by
        intro resp h
        simp at h
        subst h
        rfl)⟩

/-! ## C6: store identifier normalization -/

/-- The fuel of `removeAllFuel` is irrelevant once it covers the list
length. -/
theorem removeAllFuel_fuel_irrel (pat : List Char) :
    ∀ (f1 : Nat), ∀ (f2 : Nat) (l : List Char), l.length ≤ f1 → l.length ≤ f2 →
      removeAllFuel pat f1 l = removeAllFuel pat f2 l := by
  intro f1
  induction f1 with
  | zero =>
    intro f2 l h1 _
    have : l = [] := List.length_eq_zero.mp (Nat.le_zero.mp h1)
    subst this
    cases f2 <;> simp [removeAllFuel]
  | succ f1' ih =>
    intro f2 l h1 h2
    cases l with
    | nil => cases f2 <;> simp [removeAllFuel]
    | cons c rest =>
      cases f2 with
      | zero => simp at h2
      | succ f2' =>
        simp only [removeAllFuel]
        by_cases hp : pat ≠ [] ∧ pat.isPrefixOf (c :: rest) = true
        · rw [if_pos hp, if_pos hp]
          have hlen : (List.drop pat.length (c :: rest)).length ≤ f1' := by
            have hpat : 1 ≤ pat.length :=
              List.length_pos.mpr hp.1
            simp only [List.length_drop, List.length_cons]
            simp only [List.length_cons] at h1
            omega
          have hlen2 : (List.drop pat.length (c :: rest)).length ≤ f2' := by
            have hpat : 1 ≤ pat.length :=
              List.length_pos.mpr hp.1
            simp only [List.length_drop, List.length_cons]
            simp only [List.length_cons] at h2
            omega
          exact ih f2' (List.drop pat.length (c :: rest)) hlen hlen2
        · rw [if_neg hp, if_neg hp]
          have hr1 : rest.length ≤ f1' := by
            simp only [List.length_cons] at h1
            omega
          have hr2 : rest.length ≤ f2' := by
            simp only [List.length_cons] at h2
            omega
          rw [ih f2' rest hr1 hr2]

/-- Removing a pattern from a list that starts with that very pattern
removes the leading occurrence and continues after it. -/
theorem removeAll_pattern_cons (pat x : List Char) (hp : pat ≠ []) :
    removeAll pat (pat ++ x) = removeAll pat x := by
  rcases pat with _ | ⟨p, ps⟩
  · exact absurd rfl hp
  · unfold removeAll
    have hlen : ((p :: ps) ++ x).length = ((p :: ps) ++ x).length - 1 + 1 := by
      simp
    rw [hlen]
    show removeAllFuel (p :: ps) (((p :: ps) ++ x).length - 1 + 1) (p :: (ps ++ x)) = _
    rw [removeAllFuel]
    have hpre : (p :: ps).isPrefixOf ((p :: ps) ++ x) = true :=
      List.isPrefixOf_iff_prefix.mpr (List.prefix_append (p :: ps) x)
    rw [if_pos ⟨by simp, by simp [hpre]⟩]
    have hdrop : List.drop (p :: ps).length (p :: (ps ++ x)) = x := by
      have := List.drop_left (p :: ps) x
      simp only [List.cons_append] at this
      exact this
    rw [hdrop]
    apply removeAllFuel_fuel_irrel <;> simp

/-- C6 (amended): the client normalizes the store identifier with
`replace('https://','').replace('http://','').rstrip('/')`, which
removes EVERY occurrence of the scheme substrings, not only a leading
one (see `normalize_leading_only_counterexample`).  In particular a
leading `https://` is removed — prefixing any identifier with it does
not change the normalization — and for the identifier
`https://test-store.myshopify.com` the constructed request URL is the
expected one and contains no doubled scheme. -/
theorem normalize_replace_all_amended :
    (∀ s : String, normalizeShopUrl ("https://" ++ s) = normalizeShopUrl s) ∧
    (get_shopify_data ⟨some "token", some "2025-04", none⟩ "products.json"
        (some "https://test-store.myshopify.com") 5 1 []).url
      = "https://test-store.myshopify.com/admin/api/2025-04/products.json" ∧
    containsSub "https://https://"
      ((get_shopify_data ⟨some "token", some "2025-04", none⟩ "products.json"
        (some "https://test-store.myshopify.com") 5 1 []).url) = false := by
  refine ⟨fun s => ?_, by decide, by decide⟩
  unfold normalizeShopUrl
  have h1 : ("https://" ++ s).data = "https://".data ++ s.data := rfl
  rw [h1, removeAll_pattern_cons "https://".data s.data (by decide)]

/-- C6 counterexample: for the store identifier
`https://https://store.myshopify.com` the code removes BOTH occurrences
of `https://` (Python `str.replace` replaces all occurrences), while the
claim's normalization — strip one leading scheme, rest unchanged — would
leave `https://store.myshopify.com`. -/
theorem normalize_leading_only_counterexample :
    normalizeShopUrl "https://https://store.myshopify.com" = "store.myshopify.com"
      ∧ normalizeStoreSpec "https://https://store.myshopify.com"
        = "https://store.myshopify.com"
      ∧ ("store.myshopify.com" : String) ≠ "https://store.myshopify.com" :=
  ⟨by decide, by decide, by decide⟩

/-! ## C5: Link-Header parser -/

/-- Unfolding equation for `searchNext` on a cons. -/
theorem searchNext_cons (c : Char) (rest : List Char) :
    searchNext (c :: rest)
      = match matchNextAt (c :: rest) with
        | some url => some url
        | none => searchNext rest := rfl

/-- `[^>]+>` can only match up to the first `>`. -/
theorem splitAtGt_append (xs ys : List Char) (h : '>' ∉ xs) :
    splitAtGt (xs ++ '>' :: ys) = some (xs, ys) := by
  induction xs with
  | nil => simp [splitAtGt]
  | cons c rest ih =>
    simp only [List.mem_cons, not_or] at h
    have hc : ¬(c = '>') := fun heq => h.1 heq.symm
    have h1 : (c :: rest) ++ '>' :: ys = c :: (rest ++ '>' :: ys) := rfl
    rw [h1]
    have h2 : splitAtGt (c :: (rest ++ '>' :: ys))
        = (splitAtGt (rest ++ '>' :: ys)).map (fun pr => (c :: pr.1, pr.2)) := by
      simp [splitAtGt, hc]
    rw [h2, ih h.2]
    rfl

/-- The pattern can only match starting at a `<`. -/
theorem matchNextAt_not_lt (c : Char) (l : List Char) (h : c ≠ '<') :
    matchNextAt (c :: l) = none := by
  simp [matchNextAt, h]

/-- Scanning skips over any `<`-free region. -/
theorem searchNext_skip (xs : List Char) :
    ∀ l : List Char, (∀ c ∈ xs, c ≠ '<') → searchNext (xs ++ l) = searchNext l := by
  induction xs with
  | nil => intro l _; rfl
  | cons c rest ih =>
    intro l h
    have hc : c ≠ '<' := h c (List.mem_cons_self c rest)
    have h1 : (c :: rest) ++ l = c :: (rest ++ l) := rfl
    rw [h1, searchNext_cons, matchNextAt_not_lt c (rest ++ l) hc]
    exact ih l (fun c2 hc2 => h c2 (List.mem_cons_of_mem c hc2))

/-- For a relation name free of double quotes, the literal `next"`
matches at the rendered relation position iff the relation is exactly
`next`. -/
theorem nextQuote_prefix_iff (ws tail : List Char) (hq : '\x22' ∉ ws) :
    (['n', 'e', 'x', 't', '\x22'].isPrefixOf (ws ++ '\x22' :: tail) = true)
      ↔ ws = ['n', 'e', 'x', 't'] := by
  rcases ws with _ | ⟨a, _ | ⟨b, _ | ⟨c, _ | ⟨d, _ | ⟨e, rest⟩⟩⟩⟩⟩
  · simp [List.isPrefixOf]
  · simp [List.isPrefixOf]
  · simp [List.isPrefixOf]
  · simp [List.isPrefixOf]
  · simp only [List.cons_append, List.nil_append, List.isPrefixOf, Bool.and_eq_true, beq_iff_eq]
    simp only [List.cons.injEq, and_true]
    constructor
    · rintro ⟨rfl, rfl, rfl, rfl⟩
      exact ⟨rfl, rfl, rfl, rfl⟩
    · rintro ⟨rfl, rfl, rfl, rfl⟩
      exact ⟨rfl, rfl, rfl, rfl⟩
  · constructor
    · intro h
      simp only [List.cons_append, List.isPrefixOf, Bool.and_eq_true, beq_iff_eq] at h
      exfalso
      apply hq
      have he : e = '\x22' := h.2.2.2.2.1.symm
      subst he
      simp
    · intro h
      exact absurd h (by simp)

/-- Matching at a `<` with a `>`-free nonempty group: the group runs to
the first `>`, then `;`, whitespace and the `rel="next"` literal must
follow. -/
theorem matchNextAt_lt (url X : List Char) (hgt : '>' ∉ url) (hne : url ≠ []) :
    matchNextAt ('<' :: (url ++ '>' :: X))
      = match X with
        | ';' :: after2 =>
          if relNextLit.isPrefixOf (after2.dropWhile isRegexSpace) then some url else none
        | _ => none := by
  simp only [matchNextAt]
  rw [splitAtGt_append url X hgt]
  simp [hne]

/-- A well-formed rendered entry followed by anything matches the
pattern at its head iff its relation is `next`, capturing its URL. -/
theorem matchNextAt_entry (e : LinkEntry) (tail : List Char) (hg : goodEntry e) :
    matchNextAt (entryChars e ++ tail)
      = if e.rel = "next" then some e.url.data else none := by
  obtain ⟨hne, hurl, hrel⟩ := hg
  have hgt : '>' ∉ e.url.data := fun hmem => (hurl _ hmem).2 rfl
  have hund : e.url.data ≠ [] := by
    intro h
    apply hne
    have h2 : e.url = String.mk e.url.data := rfl
    rw [h2, h]
  have h0 : entryChars e ++ tail
      = '<' :: (e.url.data ++ '>' ::
          (';' :: ' ' :: 'r' :: 'e' :: 'l' :: '=' :: '\x22' :: (e.rel.data ++ '\x22' :: tail))) := by
    simp [entryChars]
  have hdrop : (' ' :: 'r' :: 'e' :: 'l' :: '=' :: '\x22'
        :: (e.rel.data ++ '\x22' :: tail)).dropWhile isRegexSpace
      = 'r' :: 'e' :: 'l' :: '=' :: '\x22' :: (e.rel.data ++ '\x22' :: tail) := by
    simp [List.dropWhile, isRegexSpace]
  have hlit : relNextLit.isPrefixOf
        ('r' :: 'e' :: 'l' :: '=' :: '\x22' :: (e.rel.data ++ '\x22' :: tail))
      = (['n', 'e', 'x', 't', '\x22'].isPrefixOf (e.rel.data ++ '\x22' :: tail)) := by
    simp [relNextLit, List.isPrefixOf]
  have hq : '\x22' ∉ e.rel.data := fun hmem => (hrel _ hmem).2.2 rfl
  rw [h0, matchNextAt_lt e.url.data _ hgt hund]
  show (if relNextLit.isPrefixOf ((' ' :: 'r' :: 'e' :: 'l' :: '=' :: '\x22'
        :: (e.rel.data ++ '\x22' :: tail)).dropWhile isRegexSpace)
      then some e.url.data else none)
    = if e.rel = "next" then some e.url.data else none
  rw [hdrop, hlit]
  by_cases hrn : e.rel = "next"
  · have hd : e.rel.data = ['n', 'e', 'x', 't'] := by rw [hrn]
    rw [if_pos ((nextQuote_prefix_iff e.rel.data tail hq).mpr hd), if_pos hrn]
  · have hd : e.rel.data ≠ ['n', 'e', 'x', 't'] := by
      intro h
      apply hrn
      have h2 : e.rel = String.mk e.rel.data := rfl
      rw [h2, h]
    rw [if_neg (fun h => hd ((nextQuote_prefix_iff e.rel.data tail hq).mp h)), if_neg hrn]

/-- Scanning a well-formed entry followed by `tail` either succeeds at
the entry head (relation `next`), or moves on past the entry into
`tail`. -/
theorem searchNext_entry_append (e : LinkEntry) (tail : List Char) (hg : goodEntry e) :
    searchNext (entryChars e ++ tail)
      = if e.rel = "next" then some e.url.data else searchNext tail := by
  obtain ⟨hne, hurl, hrel⟩ := hg
  have h1 : entryChars e ++ tail
      = '<' :: ((e.url.data ++ '>' :: ';' :: ' ' :: 'r' :: 'e' :: 'l' :: '=' :: '\x22'
          :: (e.rel.data ++ ['\x22'])) ++ tail) := by
    simp [entryChars]
  have h2 := matchNextAt_entry e tail ⟨hne, hurl, hrel⟩
  rw [h1] at h2 ⊢
  rw [searchNext_cons, h2]
  by_cases hrn : e.rel = "next"
  · rw [if_pos hrn, if_pos hrn]
  · rw [if_neg hrn, if_neg hrn]
    have hnolt : ∀ c ∈ (e.url.data ++ '>' :: ';' :: ' ' :: 'r' :: 'e' :: 'l' :: '=' :: '\x22'
        :: (e.rel.data ++ ['\x22'])), c ≠ '<' := by
      intro c hc
      simp only [List.mem_append, List.mem_cons, List.mem_singleton] at hc
      rcases hc with h | h | h | h | h | h | h | h | h | h | h
      · exact (hurl c h).1
      · subst h; decide
      · subst h; decide
      · subst h; decide
      · subst h; decide
      · subst h; decide
      · subst h; decide
      · subst h; decide
      · subst h; decide
      · exact (hrel c h).1
      · rcases h with rfl | h
        · decide
        · exact absurd h (List.not_mem_nil c)
    exact searchNext_skip _ tail hnolt

/-- Scanning a rendered header of well-formed entries returns the URL of
the first entry with relation `next` (as characters), if any. -/
theorem searchNext_header :
    ∀ es : List LinkEntry, (∀ e ∈ es, goodEntry e) →
      searchNext (headerChars es)
        = (es.find? (fun x => x.rel == "next")).map (fun x => x.url.data) := by
  intro es
  induction es with
  | nil => intro _; rfl
  | cons e es2 ih =>
    intro hg
    have hge := hg e (List.mem_cons_self e es2)
    have hges : ∀ x ∈ es2, goodEntry x := fun x hx => hg x (List.mem_cons_of_mem e hx)
    cases es2 with
    | nil =>
      have h1 : headerChars [e] = entryChars e ++ [] := by simp [headerChars]
      rw [h1, searchNext_entry_append e [] hge]
      by_cases hrn : e.rel = "next"
      · have hb : (e.rel == "next") = true := beq_iff_eq.mpr hrn
        simp [List.find?, hrn, hb]
      · have hb : (e.rel == "next") = false := beq_eq_false_iff_ne.mpr hrn
        simp [List.find?, hrn, hb, searchNext]
    | cons e2 es3 =>
      have h1 : headerChars (e :: e2 :: es3)
          = entryChars e ++ (',' :: ' ' :: headerChars (e2 :: es3)) := rfl
      rw [h1, searchNext_entry_append e _ hge]
      by_cases hrn : e.rel = "next"
      · have hb : (e.rel == "next") = true := beq_iff_eq.mpr hrn
        simp [List.find?, hrn, hb]
      · have hb : (e.rel == "next") = false := beq_eq_false_iff_ne.mpr hrn
        have hskip : searchNext (',' :: ' ' :: headerChars (e2 :: es3))
            = searchNext (headerChars (e2 :: es3)) := by
          have := searchNext_skip [',', ' '] (headerChars (e2 :: es3)) (by decide)
          simpa using this
        rw [if_neg hrn, hskip, ih hges]
        simp [List.find?, hb]

/-- C5: for every header that is a comma-separated list of well-formed
entries `<URL>; rel="relation"` (URLs nonempty and free of angle
brackets, relations free of angle brackets and quotes),
`parse_link_header` returns the URL of the first entry with relation
`next`, regardless of the other entries present (including
`rel="previous"`), and returns `none` when no entry has relation `next`;
a `None` header and an empty header also give `none`.  (The function is
total — the model of "must not throw on malformed input".) -/
theorem link_header_next_spec :
    (∀ es : List LinkEntry, (∀ e ∈ es, goodEntry e) →
      parse_link_header (some (renderHeader es))
        = (es.find? (fun x => x.rel == "next")).map (fun x => x.url)) ∧
    parse_link_header none = none ∧ parse_link_header (some "") = none := by
  refine ⟨?_, rfl, rfl⟩
  intro es hg
  cases es with
  | nil => rfl
  | cons e es2 =>
    have hhead : ∃ t, headerChars (e :: es2) = '<' :: t := by
      cases es2 with
      | nil => exact ⟨_, rfl⟩
      | cons e2 es3 => exact ⟨_, rfl⟩
    have hne : renderHeader (e :: es2) ≠ "" := by
      intro h
      obtain ⟨t, ht⟩ := hhead
      have : headerChars (e :: es2) = [] := by
        have h2 := congrArg String.data h
        simpa [renderHeader] using h2
      rw [ht] at this
      exact absurd this (by simp)
    show (if renderHeader (e :: es2) = "" then none
      else (searchNext (renderHeader (e :: es2)).data).map String.mk) = _
    rw [if_neg hne]
    have hdata : (renderHeader (e :: es2)).data = headerChars (e :: es2) := rfl
    rw [hdata, searchNext_header (e :: es2) hg]
    rcases hf : (e :: es2).find? (fun x => x.rel == "next") with _ | x
    · rw [hf]
      rfl
    · rw [hf]
      rfl

/-- Witness for `link_header_next_spec`: a header with a `previous` and
a `next` entry yields the `next` entry's URL. -/
theorem link_header_next_spec_witness :
    parse_link_header (some (renderHeader
        [⟨"https://a/p?page_info=prev123", "previous"⟩,
          ⟨"https://a/p?page_info=next456", "next"⟩]))
      = some "https://a/p?page_info=next456" := by
  have h := link_header_next_spec.1
    [⟨"https://a/p?page_info=prev123", "previous"⟩, ⟨"https://a/p?page_info=next456", "next"⟩]
    (by decide)
  rw [h]
  rfl

/-! ## C8: request validation -/

/-- The code-side `if/elif` chain and the claim-side per-field
validation agree. -/
theorem validateField_eq_fieldViolations (name : String) (v : JValue) :
    validateField name v = fieldViolations name v := by
  cases v <;> rfl

/-- C8: for every parsed request body in which `store_url` or `query`
is missing (or JSON `null`), not a string, or empty after trimming, the
handler returns status 400 with error `Validation failed` and a details
list containing one entry for every violated field (both fields
collected, `store_url` first), plus the empty response envelope
`text:"" tables:[] chart_data:[]`; the agent outcome never influences
the response. -/
theorem validation_collects_all_errors (data : List (String × JValue)) (agent : AgentOutcome)
    (hviol : fieldViolations "store_url" (pyGetJ data "store_url")
        ++ fieldViolations "query" (pyGetJ data "query") ≠ []) :
    (chat (some data) agent).status = 400
      ∧ lookupKey (chat (some data) agent).body "error" = some (JValue.str "Validation failed")
      ∧ lookupKey (chat (some data) agent).body "details"
        = some (JValue.arr ((fieldViolations "store_url" (pyGetJ data "store_url")
            ++ fieldViolations "query" (pyGetJ data "query")).map JValue.str))
      ∧ lookupKey (chat (some data) agent).body "text" = some (JValue.str "")
      ∧ lookupKey (chat (some data) agent).body "tables" = some (JValue.arr [])
      ∧ lookupKey (chat (some data) agent).body "chart_data" = some (JValue.arr [])
      ∧ (∀ agent2, chat (some data) agent2 = chat (some data) agent) := by
  have hv : validateField "store_url" (pyGetJ data "store_url")
      ++ validateField "query" (pyGetJ data "query") ≠ [] := by
    rw [validateField_eq_fieldViolations, validateField_eq_fieldViolations]
    exact hviol
  have hchat : ∀ a : AgentOutcome, chat (some data) a
      = ⟨400, ("error", JValue.str "Validation failed") ::
          ("details", JValue.arr ((validateField "store_url" (pyGetJ data "store_url")
            ++ validateField "query" (pyGetJ data "query")).map JValue.str)) ::
          create_response (JValue.str "") JValue.null JValue.null⟩ := by
    intro a
    simp only [chat]
    rw [if_pos hv]
  refine ⟨by rw [hchat agent], by rw [hchat agent]; rfl, ?_, by rw [hchat agent]; rfl,
    by rw [hchat agent]; rfl, by rw [hchat agent]; rfl,
    fun a2 => by rw [hchat a2, hchat agent]⟩
  rw [hchat agent]
  show some (JValue.arr ((validateField "store_url" (pyGetJ data "store_url")
      ++ validateField "query" (pyGetJ data "query")).map JValue.str)) = _
  rw [validateField_eq_fieldViolations, validateField_eq_fieldViolations]

/-- Witness for `validation_collects_all_errors`: the spec's example
body `{"store_url": "s", "query": "  "}` gives a 400 whose details list
is exactly `["'query' cannot be empty"]`. -/
theorem validation_collects_all_errors_witness :
    (chat (some [("store_url", JValue.str "s"), ("query", JValue.str "  ")])
        AgentOutcome.otherErr).status = 400
      ∧ lookupKey (chat (some [("store_url", JValue.str "s"), ("query", JValue.str "  ")])
          AgentOutcome.otherErr).body "details"
        = some (JValue.arr ((fieldViolations "store_url"
            (pyGetJ [("store_url", JValue.str "s"), ("query", JValue.str "  ")] "store_url")
            ++ fieldViolations "query"
              (pyGetJ [("store_url", JValue.str "s"), ("query", JValue.str "  ")] "query")).map
            JValue.str)) :=
  ⟨(validation_collects_all_errors
      [("store_url", JValue.str "s"), ("query", JValue.str "  ")] AgentOutcome.otherErr
      (by decide)).1,
    (validation_collects_all_errors
      [("store_url", JValue.str "s"), ("query", JValue.str "  ")] AgentOutcome.otherErr
      (by decide)).2.2.1⟩

/-! ## C9: response envelope -/

/-- `create_response` always sets `tables` to a concrete list. -/
theorem create_response_tables (t tb ch : JValue) :
    ∃ ts, lookupKey (create_response t tb ch) "tables" = some (JValue.arr ts) := by
  cases tb <;> exact ⟨_, rfl⟩

/-- `create_response` always sets `chart_data` to a concrete list. -/
theorem create_response_chart (t tb ch : JValue) :
    ∃ cs, lookupKey (create_response t tb ch) "chart_data" = some (JValue.arr cs) := by
  cases ch <;> exact ⟨_, rfl⟩

/-- `create_response` always sets `text`, never to `null`. -/
theorem create_response_text (t tb ch : JValue) :
    ∃ tv, lookupKey (create_response t tb ch) "text" = some tv ∧ tv ≠ JValue.null := by
  cases t <;> exact ⟨_, rfl, fun h => JValue.noConfusion h⟩

/-- When the text argument is `null` or a string, `create_response`
sets a string `text`. -/
theorem create_response_text_str (t tb ch : JValue)
    (h : t = JValue.null ∨ ∃ s, t = JValue.str s) :
    ∃ s, lookupKey (create_response t tb ch) "text" = some (JValue.str s) := by
  rcases h with rfl | ⟨s, rfl⟩
  · exact ⟨"", rfl⟩
  · exact ⟨s, rfl⟩

/-- C9 (amended): every response of the chat handler — success or error
— has `text`, `tables` and `chart_data` keys; `tables` and `chart_data`
are always concrete lists (null or non-list agent values become `[]`),
and `text` is never absent or `null` (a null or missing agent text
becomes `""`).  `text` is a STRING whenever the agent's `text` value is
missing, `null`, or itself a string; a non-string non-null agent text
value passes through unchanged (see
`text_passthrough_counterexample`). -/
theorem response_envelope_amended :
    (∀ (body : Option (List (String × JValue))) (agent : AgentOutcome),
      (∃ ts, lookupKey (chat body agent).body "tables" = some (JValue.arr ts))
      ∧ (∃ cs, lookupKey (chat body agent).body "chart_data" = some (JValue.arr cs))
      ∧ (∃ tv, lookupKey (chat body agent).body "text" = some tv ∧ tv ≠ JValue.null)) ∧
    (∀ (body : Option (List (String × JValue))) (result : List (String × JValue)),
      (lookupKey result "text" = none ∨ lookupKey result "text" = some JValue.null
        ∨ ∃ s, lookupKey result "text" = some (JValue.str s)) →
      ∃ s, lookupKey (chat body (AgentOutcome.ok result)).body "text"
        = some (JValue.str s)) := by
  have herr : ∀ (msg : String) (code : Nat),
      (∃ ts, lookupKey (create_error_response msg code).body "tables" = some (JValue.arr ts))
      ∧ (∃ cs, lookupKey (create_error_response msg code).body "chart_data"
          = some (JValue.arr cs))
      ∧ (∃ tv, lookupKey (create_error_response msg code).body "text" = some tv
          ∧ tv ≠ JValue.null)
      ∧ (∃ s, lookupKey (create_error_response msg code).body "text"
          = some (JValue.str s)) :=
    fun msg code =>
      ⟨⟨[], rfl⟩, ⟨[], rfl⟩, ⟨JValue.str "", rfl, fun h => JValue.noConfusion h⟩, ⟨"", rfl⟩⟩
  constructor
  · intro body agent
    rcases body with _ | data
    · exact ⟨(herr _ _).1, (herr _ _).2.1, (herr _ _).2.2.1⟩
    · by_cases hv : validateField "store_url" (pyGetJ data "store_url")
          ++ validateField "query" (pyGetJ data "query") ≠ []
      · have hchat : chat (some data) agent
            = ⟨400, ("error", JValue.str "Validation failed") ::
                ("details", JValue.arr ((validateField "store_url" (pyGetJ data "store_url")
                  ++ validateField "query" (pyGetJ data "query")).map JValue.str)) ::
                create_response (JValue.str "") JValue.null JValue.null⟩ := by
          simp only [chat]
          rw [if_pos hv]
        rw [hchat]
        exact ⟨⟨[], rfl⟩, ⟨[], rfl⟩, ⟨JValue.str "", rfl, fun h => JValue.noConfusion h⟩⟩
      · cases agent with
        | ok result =>
          have hchat : chat (some data) (AgentOutcome.ok result)
              = ⟨200, create_response
                  (match lookupKey result "text" with
                    | none => JValue.str ""
                    | some v => v)
                  (pyGetJ result "tables") (pyGetJ result "chart_data")⟩ := by
            simp only [chat]
            rw [if_neg hv]
          rw [hchat]
          exact ⟨create_response_tables _ _ _, create_response_chart _ _ _,
            create_response_text _ _ _⟩
        | timeoutErr =>
          have hchat : chat (some data) AgentOutcome.timeoutErr
              = create_error_response "Request timed out. Please try a simpler query." 504 := by
            simp only [chat]
            rw [if_neg hv]
          rw [hchat]
          exact ⟨(herr _ _).1, (herr _ _).2.1, (herr _ _).2.2.1⟩
        | rateLimitErr =>
          have hchat : chat (some data) AgentOutcome.rateLimitErr
              = create_error_response
                  "Shopify API rate limit exceeded. Please try again later." 429 := by
            simp only [chat]
            rw [if_neg hv]
          rw [hchat]
          exact ⟨(herr _ _).1, (herr _ _).2.1, (herr _ _).2.2.1⟩
        | shopifyApiErr =>
          have hchat : chat (some data) AgentOutcome.shopifyApiErr
              = create_error_response
                  "Unable to communicate with Shopify. Please try again." 502 := by
            simp only [chat]
            rw [if_neg hv]
          rw [hchat]
          exact ⟨(herr _ _).1, (herr _ _).2.1, (herr _ _).2.2.1⟩
        | valueErr =>
          have hchat : chat (some data) AgentOutcome.valueErr
              = create_error_response "Invalid request parameters." 400 := by
            simp only [chat]
            rw [if_neg hv]
          rw [hchat]
          exact ⟨(herr _ _).1, (herr _ _).2.1, (herr _ _).2.2.1⟩
        | otherErr =>
          have hchat : chat (some data) AgentOutcome.otherErr
              = create_error_response
                  "An error occurred while processing your request. Please try again." 500 := by
            simp only [chat]
            rw [if_neg hv]
          rw [hchat]
          exact ⟨(herr _ _).1, (herr _ _).2.1, (herr _ _).2.2.1⟩
  · intro body result htext
    rcases body with _ | data
    · exact (herr "Invalid JSON format." 400).2.2.2
    · by_cases hv : validateField "store_url" (pyGetJ data "store_url")
          ++ validateField "query" (pyGetJ data "query") ≠ []
      · have hchat : chat (some data) (AgentOutcome.ok result)
            = ⟨400, ("error", JValue.str "Validation failed") ::
                ("details", JValue.arr ((validateField "store_url" (pyGetJ data "store_url")
                  ++ validateField "query" (pyGetJ data "query")).map JValue.str)) ::
                create_response (JValue.str "") JValue.null JValue.null⟩ := by
          simp only [chat]
          rw [if_pos hv]
        rw [hchat]
        exact ⟨"", rfl⟩
      · have hchat : chat (some data) (AgentOutcome.ok result)
            = ⟨200, create_response
                (match lookupKey result "text" with
                  | none => JValue.str ""
                  | some v => v)
                (pyGetJ result "tables") (pyGetJ result "chart_data")⟩ := by
          simp only [chat]
          rw [if_neg hv]
        rw [hchat]
        apply create_response_text_str
        rcases htext with h | h | ⟨s, h⟩
        · rw [h]
          exact Or.inr ⟨"", rfl⟩
        · rw [h]
          exact Or.inl rfl
        · rw [h]
          exact Or.inr ⟨s, rfl⟩

/-- Witness for `response_envelope_amended`: when the agent result is
`{"text": null, "tables": null, "chart_data": null}` the response text
is a string (and the envelope lists are concrete). -/
theorem response_envelope_amended_witness :
    ∃ s, lookupKey (chat (some validChatBody)
        (AgentOutcome.ok
          [("text", JValue.null), ("tables", JValue.null),
            ("chart_data", JValue.null)])).body "text"
      = some (JValue.str s) :=
  response_envelope_amended.2 (some validChatBody)
    [("text", JValue.null), ("tables", JValue.null), ("chart_data", JValue.null)]
    (Or.inr (Or.inl rfl))

/-- C9 counterexample: when the agent result sets `text` to the number
`5` — non-null and not a string — `create_response` passes it through
unchanged (`text if text is not None else ""`), so the 200 response has
a non-string `text`, refuting the claim that `text` is a string in
every response. -/
theorem text_passthrough_counterexample :
    lookupKey (chat (some validChatBody)
        (AgentOutcome.ok [("text", JValue.num 5)])).body "text" = some (JValue.num 5)
      ∧ (∀ s, JValue.num 5 ≠ JValue.str s)
      ∧ (chat (some validChatBody) (AgentOutcome.ok [("text", JValue.num 5)])).status = 200 :=
  ⟨rfl, fun _ h => JValue.noConfusion h, rfl⟩

/-! ## C10: the tools convert every failure into a returned error object -/

/-- `errObj` is an object carrying an `error` key. -/
theorem errObj_hasErrorKey (msg : String) : hasErrorKey (errObj msg) :=
  ⟨[("error", JValue.str msg)], msg, rfl, rfl⟩

/-- An invalid endpoint short-circuits `get_shopify_data_tool`. -/
theorem toolA_invalid_endpoint (endpoint : String) (params : ParamsArg) (o : ClientOutcome)
    (h : endpoint ∉ validEndpointsList) :
    get_shopify_data_tool endpoint params o = errObj (invalidEndpointMsg endpoint) := by
  simp [get_shopify_data_tool, h]

/-- An invalid endpoint short-circuits `get_all_shopify_data_tool`. -/
theorem toolB_invalid_endpoint (endpoint : String) (params : ParamsArg) (ao : AllPagesOutcome)
    (h : endpoint ∉ validEndpointsList) :
    get_all_shopify_data_tool endpoint params ao = errObj (invalidEndpointMsg endpoint) := by
  simp [get_all_shopify_data_tool, h]

/-- Malformed params short-circuit `get_shopify_data_tool`. -/
theorem toolA_malformed (endpoint : String) (m : String) (o : ClientOutcome)
    (h : endpoint ∈ validEndpointsList) :
    get_shopify_data_tool endpoint (ParamsArg.malformed m) o
      = errObj ("Invalid params JSON: " ++ m) := by
  simp [get_shopify_data_tool, h]

/-- Malformed params short-circuit `get_all_shopify_data_tool`. -/
theorem toolB_malformed (endpoint : String) (m : String) (ao : AllPagesOutcome)
    (h : endpoint ∈ validEndpointsList) :
    get_all_shopify_data_tool endpoint (ParamsArg.malformed m) ao
      = errObj ("Invalid params JSON: " ++ m) := by
  simp [get_all_shopify_data_tool, h]

/-- For a valid endpoint, `get_shopify_data_tool` returns an object in
every case. -/
theorem toolA_valid_shape (endpoint : String) (params : ParamsArg) (o : ClientOutcome)
    (h : endpoint ∈ validEndpointsList) :
    ∃ f, get_shopify_data_tool endpoint params o = JValue.obj f := by
  have hcond : ¬((!validEndpointsList.contains endpoint) = true) := by simp [h]
  unfold get_shopify_data_tool
  rw [if_neg hcond]
  rcases params with _ | v | m
  · rcases o with ⟨d, n⟩ | m2 | ⟨m2, s2, b2⟩ | ⟨m2, s2, b2⟩ | m2 | _
    · cases d <;> exact ⟨_, rfl⟩
    · exact ⟨_, rfl⟩
    · exact ⟨_, rfl⟩
    · exact ⟨_, rfl⟩
    · exact ⟨_, rfl⟩
    · exact ⟨_, rfl⟩
  · rcases o with ⟨d, n⟩ | m2 | ⟨m2, s2, b2⟩ | ⟨m2, s2, b2⟩ | m2 | _
    · cases d <;> exact ⟨_, rfl⟩
    · exact ⟨_, rfl⟩
    · exact ⟨_, rfl⟩
    · exact ⟨_, rfl⟩
    · exact ⟨_, rfl⟩
    · exact ⟨_, rfl⟩
  · exact ⟨_, rfl⟩

/-- For a valid endpoint, `get_all_shopify_data_tool` returns an object
in every case. -/
theorem toolB_valid_shape (endpoint : String) (params : ParamsArg) (ao : AllPagesOutcome)
    (h : endpoint ∈ validEndpointsList) :
    ∃ f, get_all_shopify_data_tool endpoint params ao = JValue.obj f := by
  rcases params with _ | v | m
  · rcases ao with ps | e2
    · rcases hpo : pagesAsObjs ps with _ | pf
      · have he : get_all_shopify_data_tool endpoint ParamsArg.absent (AllPagesOutcome.pages ps)
            = errObj ("Shopify API error: " ++ noItemsMsg) := by
          simp [get_all_shopify_data_tool, h, hpo]
        exact ⟨_, he⟩
      · rcases hmg : mergePages pf with _ | combined
        · have he : get_all_shopify_data_tool endpoint ParamsArg.absent
              (AllPagesOutcome.pages ps) = errObj ("Shopify API error: " ++ noExtendMsg) := by
            simp [get_all_shopify_data_tool, h, hpo, hmg]
          exact ⟨_, he⟩
        · have he : get_all_shopify_data_tool endpoint ParamsArg.absent
              (AllPagesOutcome.pages ps) = JValue.obj (truncateAllFields combined) := by
            simp [get_all_shopify_data_tool, h, hpo, hmg]
          exact ⟨_, he⟩
    · have he : get_all_shopify_data_tool endpoint ParamsArg.absent (AllPagesOutcome.raised e2)
          = errObj ("Shopify API error: " ++ clientErrMsg e2) := by
        simp [get_all_shopify_data_tool, h]
      exact ⟨_, he⟩
  · rcases ao with ps | e2
    · rcases hpo : pagesAsObjs ps with _ | pf
      · have he : get_all_shopify_data_tool endpoint (ParamsArg.parsed v)
            (AllPagesOutcome.pages ps) = errObj ("Shopify API error: " ++ noItemsMsg) := by
          simp [get_all_shopify_data_tool, h, hpo]
        exact ⟨_, he⟩
      · rcases hmg : mergePages pf with _ | combined
        · have he : get_all_shopify_data_tool endpoint (ParamsArg.parsed v)
              (AllPagesOutcome.pages ps) = errObj ("Shopify API error: " ++ noExtendMsg) := by
            simp [get_all_shopify_data_tool, h, hpo, hmg]
          exact ⟨_, he⟩
        · have he : get_all_shopify_data_tool endpoint (ParamsArg.parsed v)
              (AllPagesOutcome.pages ps) = JValue.obj (truncateAllFields combined) := by
            simp [get_all_shopify_data_tool, h, hpo, hmg]
          exact ⟨_, he⟩
    · have he : get_all_shopify_data_tool endpoint (ParamsArg.parsed v)
          (AllPagesOutcome.raised e2) = errObj ("Shopify API error: " ++ clientErrMsg e2) := by
        simp [get_all_shopify_data_tool, h]
      exact ⟨_, he⟩
  · have he : get_all_shopify_data_tool endpoint (ParamsArg.malformed m) ao
        = errObj ("Invalid params JSON: " ++ m) := toolB_malformed endpoint m ao h
    exact ⟨_, he⟩

/-- For a valid endpoint and non-malformed params, a client exception
makes `get_shopify_data_tool` return an error object. -/
theorem toolA_client_error (endpoint : String) (params : ParamsArg) (o : ClientOutcome)
    (h : endpoint ∈ validEndpointsList) (ho : ∀ d n, o ≠ ClientOutcome.ok d n) :
    hasErrorKey (get_shopify_data_tool endpoint params o) := by
  have hcond : ¬((!validEndpointsList.contains endpoint) = true) := by simp [h]
  unfold get_shopify_data_tool
  rw [if_neg hcond]
  rcases params with _ | v | m
  · rcases o with ⟨d, n⟩ | m2 | ⟨m2, s2, b2⟩ | ⟨m2, s2, b2⟩ | m2 | _
    · exact absurd rfl (ho d n)
    · exact errObj_hasErrorKey _
    · exact errObj_hasErrorKey _
    · exact errObj_hasErrorKey _
    · exact errObj_hasErrorKey _
    · exact errObj_hasErrorKey _
  · rcases o with ⟨d, n⟩ | m2 | ⟨m2, s2, b2⟩ | ⟨m2, s2, b2⟩ | m2 | _
    · exact absurd rfl (ho d n)
    · exact errObj_hasErrorKey _
    · exact errObj_hasErrorKey _
    · exact errObj_hasErrorKey _
    · exact errObj_hasErrorKey _
    · exact errObj_hasErrorKey _
  · exact errObj_hasErrorKey _

/-- For a valid endpoint and non-malformed params, a client exception
propagated through `get_all_shopify_data` makes
`get_all_shopify_data_tool` return an error object. -/
theorem toolB_client_error (endpoint : String) (params : ParamsArg) (e2 : ClientOutcome)
    (h : endpoint ∈ validEndpointsList) :
    hasErrorKey (get_all_shopify_data_tool endpoint params (AllPagesOutcome.raised e2)) := by
  have hcond : ¬((!validEndpointsList.contains endpoint) = true) := by simp [h]
  unfold get_all_shopify_data_tool
  rw [if_neg hcond]
  rcases params with _ | v | m
  · exact errObj_hasErrorKey _
  · exact errObj_hasErrorKey _
  · exact errObj_hasErrorKey _

/-- C10: both tools always return a JSON object (the dict that
`json.dumps` serializes); an invalid endpoint, a params string that does
not parse as JSON, and any exception from the Shopify client (the whole
`ShopifyAPIError` taxonomy — config, network, HTTP and rate-limit
errors) are converted into a returned object with an `error` key instead
of propagating. -/
theorem tools_never_raise (endpoint : String) (params : ParamsArg)
    (o : ClientOutcome) (ao : AllPagesOutcome) :
    (∃ fields, get_shopify_data_tool endpoint params o = JValue.obj fields)
      ∧ (∃ fields2, get_all_shopify_data_tool endpoint params ao = JValue.obj fields2)
      ∧ (endpoint ∉ validEndpointsList →
          hasErrorKey (get_shopify_data_tool endpoint params o)
            ∧ hasErrorKey (get_all_shopify_data_tool endpoint params ao))
      ∧ (∀ m, params = ParamsArg.malformed m →
          hasErrorKey (get_shopify_data_tool endpoint params o)
            ∧ hasErrorKey (get_all_shopify_data_tool endpoint params ao))
      ∧ ((∀ d n, o ≠ ClientOutcome.ok d n) →
          hasErrorKey (get_shopify_data_tool endpoint params o))
      ∧ (∀ e, ao = AllPagesOutcome.raised e →
          hasErrorKey (get_all_shopify_data_tool endpoint params ao)) := by
  by_cases hepm : endpoint ∈ validEndpointsList
  · refine ⟨toolA_valid_shape endpoint params o hepm, toolB_valid_shape endpoint params ao hepm,
      fun hc => absurd hepm hc, ?_, fun ho => toolA_client_error endpoint params o hepm ho, ?_⟩
    · rintro m rfl
      rw [toolA_malformed endpoint m o hepm, toolB_malformed endpoint m ao hepm]
      exact ⟨errObj_hasErrorKey _, errObj_hasErrorKey _⟩
    · rintro e2 rfl
      exact toolB_client_error endpoint params e2 hepm
  · rw [toolA_invalid_endpoint endpoint params o hepm,
      toolB_invalid_endpoint endpoint params ao hepm]
    exact ⟨⟨_, rfl⟩, ⟨_, rfl⟩, fun _ => ⟨errObj_hasErrorKey _, errObj_hasErrorKey _⟩,
      fun m _ => ⟨errObj_hasErrorKey _, errObj_hasErrorKey _⟩,
      fun _ => errObj_hasErrorKey _, fun _ _ => errObj_hasErrorKey _⟩

/-- Witness for `tools_never_raise`: an invalid endpoint and a
rate-limit client outcome both yield error objects, at concrete
inputs. -/
theorem tools_never_raise_witness :
    hasErrorKey (get_shopify_data_tool "bogus.json" ParamsArg.absent
        (ClientOutcome.rateLimitError "Rate limit exceeded after 5 retries" 429 "Rate limited"))
      ∧ hasErrorKey (get_all_shopify_data_tool "orders.json" ParamsArg.absent
          (AllPagesOutcome.raised
            (ClientOutcome.networkError "Connection error: refused"))) :=
  ⟨((tools_never_raise "bogus.json" ParamsArg.absent
      (ClientOutcome.rateLimitError "Rate limit exceeded after 5 retries" 429 "Rate limited")
      (AllPagesOutcome.pages [])).2.2.1 (by decide)).1,
    (tools_never_raise "orders.json" ParamsArg.absent ClientOutcome.noResponse
      (AllPagesOutcome.raised (ClientOutcome.networkError "Connection error: refused"))).2.2.2.2.2
      (ClientOutcome.networkError "Connection error: refused") rfl⟩

/-! ## C2: rate-limit exhaustion and the 429 response -/

/-- C2 counterexample: a request whose Shopify client exhausts the 429
retry budget does NOT produce a 429 response through the implemented
pipeline.  On a script of six 429 responses the client raises
`ShopifyRateLimitError`; but `get_shopify_data_tool` catches every
exception and converts it into a returned `{"error": ...}` object, so
`agent.invoke` never sees the exception (the agent consumes the error
string and answers normally) and the handler's
`except ShopifyRateLimitError` branch is not reached: the request
completes with status 200, not 429. -/
theorem rate_limit_swallowed_counterexample :
    (get_shopify_data cfgOk "products.json" none defaultMaxRetries defaultInitialBackoff
        [resp429, resp429, resp429, resp429, resp429, resp429]).outcome
        = ClientOutcome.rateLimitError "Rate limit exceeded after 5 retries" 429 "Rate limited"
      ∧ get_shopify_data_tool "products.json" ParamsArg.absent
          (ClientOutcome.rateLimitError "Rate limit exceeded after 5 retries" 429 "Rate limited")
          = errObj "Shopify API error: Rate limit exceeded after 5 retries"
      ∧ (chat (some validChatBody)
            (AgentOutcome.ok (run_agent_result (InvokeOutcome.returnsParsed
              (textOnlyResult "The Shopify tool reported a rate limit error."))))).status = 200
      ∧ (200 : Nat) ≠ 429 := by
  refine ⟨?_, rfl, rfl, by decide⟩
  simp [get_shopify_data, cfgOk, pyTruthy, runClientAux, resp429, defaultMaxRetries,
    defaultInitialBackoff]
  rfl

/-- C2 (amended): the handler's `except ShopifyRateLimitError` branch
does map the exception to a 429 response carrying the rate-limit
message — for any request body that passes validation,
`chat` on a `ShopifyRateLimitError` outcome is exactly
`create_error_response "Shopify API rate limit exceeded. Please try
again later." 429`.  But that branch is unreachable through the
implemented tool path: `get_shopify_data_tool` converts every client
exception, including `ShopifyRateLimitError`, into a returned
`{"error": ...}` object instead of letting it propagate. -/
theorem rate_limit_maps_to_429_amended (data : List (String × JValue)) (endpoint : String)
    (params : ParamsArg) (msg bodyS : String) (st : Nat)
    (hval : validateField "store_url" (pyGetJ data "store_url")
        ++ validateField "query" (pyGetJ data "query") = []) :
    chat (some data) AgentOutcome.rateLimitErr
        = create_error_response "Shopify API rate limit exceeded. Please try again later." 429
      ∧ hasErrorKey (get_shopify_data_tool endpoint params
          (ClientOutcome.rateLimitError msg st bodyS)) := by
  constructor
  · simp [chat, hval]
  · by_cases hepm : endpoint ∈ validEndpointsList
    · exact toolA_client_error endpoint params _ hepm (fun d n h => ClientOutcome.noConfusion h)
    · rw [toolA_invalid_endpoint endpoint params _ hepm]
      exact errObj_hasErrorKey _

/-- Witness for `rate_limit_maps_to_429_amended`: the valid chat body
and a concrete exhausted-retry exception. -/
theorem rate_limit_maps_to_429_amended_witness :
    chat (some validChatBody) AgentOutcome.rateLimitErr
        = create_error_response "Shopify API rate limit exceeded. Please try again later." 429
      ∧ hasErrorKey (get_shopify_data_tool "products.json" ParamsArg.absent
          (ClientOutcome.rateLimitError "Rate limit exceeded after 5 retries" 429 "Rate limited")) :=
  rate_limit_maps_to_429_amended validChatBody "products.json" ParamsArg.absent
    "Rate limit exceeded after 5 retries" "Rate limited" 429 rfl
